import Mathlib

/-!
# ijkplayer `ff_ffplay.c`: queues, clocks, synchronisation and buffering

A shallow embedding of the queueing, clock, synchronisation, backpressure and
buffering code of `src/ijkmedia/ijkplayer/ff_ffplay.c`, followed by the properties
proved about it.

Modelling conventions.

* The singly linked chain `first_pkt -> ... -> last_pkt` of a `PacketQueue` is the
  list `pkts` (head = `first_pkt`, last element = `last_pkt`); the free list
  `recycle_pkt` is the list `recycle_pkt`.
* The struct declarations live in `ff_ffplay_def.h`; the integer fields are
  mathematical integers and `sizeof(MyAVPacketList)` is a parameter `sizeof_node`
  of every function using it.
* Macros and enumerators of `ff_ffplay_def.h` (`AV_SYNC_*`, the synchronisation
  thresholds, `MIN_FRAMES`, `FRAME_QUEUE_SIZE`, ...) are parameters; constants of
  FFmpeg (`AV_PKT_FLAG_KEY`, `AV_DISPOSITION_ATTACHED_PIC`, `AV_NOPTS_VALUE`) have
  their FFmpeg values.
* A `double` is NaN or an exact rational number; `int` casts are exact.
* Mutexes and condition variables are not modelled: every function is the body
  that runs under the queue's mutex.  A call that would sleep in `SDL_CondWait`
  yields an explicit `waiting` outcome.
-/

namespace FFPlay

/-! ## Packets -/

/-- Target of the `data` pointer of an `AVPacket`: `NULL`, the address of the global
`flush_pkt` (see `ffp_global_init`: `flush_pkt.data = (uint8_t *)&flush_pkt`), or a
payload buffer with its bytes. -/
inductive DataPtr where
  | null
  | flush_addr
  | buf (bytes : List Nat)
deriving DecidableEq, Repr

/-- The fields of `AVPacket` that the player reads. -/
structure AVPacket where
  data : DataPtr
  size : Int
  pts : Int
  dts : Int
  duration : Int
  flags : Int
  stream_index : Int
  pos : Int
deriving DecidableEq, Repr

/-- `AV_NOPTS_VALUE`, i.e. `INT64_MIN`. -/
def AV_NOPTS_VALUE : Int := -9223372036854775808

/-- `av_init_packet`: resets every field but `data` and `size`. -/
def av_init_packet (p : AVPacket) : AVPacket :=
  { p with pts := AV_NOPTS_VALUE, dts := AV_NOPTS_VALUE, pos := -1,
           duration := 0, flags := 0, stream_index := 0 }

/-- `av_packet_unref`: drops the payload and resets the packet. -/
def av_packet_unref (p : AVPacket) : AVPacket :=
  { av_init_packet p with data := DataPtr.null, size := 0 }

/-- The global `flush_pkt` after `av_init_packet(&flush_pkt)` and
`flush_pkt.data = (uint8_t *)&flush_pkt` (a zero-initialised static before that). -/
def flush_pkt : AVPacket :=
  { data := DataPtr.flush_addr, size := 0, pts := AV_NOPTS_VALUE, dts := AV_NOPTS_VALUE,
    duration := 0, flags := 0, stream_index := 0, pos := -1 }

/-- The `AVPacket *pkt` argument of the put functions: either `&flush_pkt` or a
pointer to some other packet. -/
inductive PktArg where
  | flush_marker
  | packet (p : AVPacket)
deriving DecidableEq, Repr

/-- The packet a `PktArg` points to (`*pkt`). -/
def PktArg.deref : PktArg → AVPacket
  | PktArg.flush_marker => flush_pkt
  | PktArg.packet p => p

/-- One node of the queue: the packet copy and the serial stamped on it. -/
structure MyAVPacketList where
  pkt : AVPacket
  serial : Int
deriving DecidableEq, Repr

/-- The packet queue. -/
structure PacketQueue where
  pkts : List MyAVPacketList
  recycle_pkt : List MyAVPacketList
  recycle_count : Int
  alloc_count : Int
  nb_packets : Int
  size : Int
  duration : Int
  abort_request : Int
  serial : Int
deriving DecidableEq, Repr

/-- The `first_pkt` pointer (`none` is `NULL`). -/
def PacketQueue.first_pkt (q : PacketQueue) : Option MyAVPacketList := q.pkts.head?

/-- The `last_pkt` pointer (`none` is `NULL`). -/
def PacketQueue.last_pkt (q : PacketQueue) : Option MyAVPacketList := q.pkts.getLast?

/-! ## Packet queue operations -/

/-- `packet_queue_put_private`.  `malloc_ok` tells whether `av_malloc` returns a node
when the free list is empty.  Returns the C return value and the new queue. -/
def packet_queue_put_private (sizeof_node : Nat) (q : PacketQueue) (pkt : PktArg)
    (malloc_ok : Bool) : Int × PacketQueue :=
  if q.abort_request ≠ 0 then (-1, q)
  else
    let r : PacketQueue × Bool :=
      match q.recycle_pkt with
      | _ :: rest =>
        ({ q with recycle_pkt := rest, recycle_count := q.recycle_count + 1 }, true)
      | [] => ({ q with alloc_count := q.alloc_count + 1 }, malloc_ok)
    if r.2 = false then (-1, r.1)
    else
      let serial := if pkt = PktArg.flush_marker then r.1.serial + 1 else r.1.serial
      let pkt1 : MyAVPacketList := { pkt := pkt.deref, serial := serial }
      (0, { r.1 with
              serial := serial,
              pkts := r.1.pkts ++ [pkt1],
              nb_packets := r.1.nb_packets + 1,
              size := r.1.size + (pkt1.pkt.size + (sizeof_node : Int)),
              duration := r.1.duration + pkt1.pkt.duration })

/-- `packet_queue_put`: the return value, the new queue, and whether the caller's
packet was released with `av_packet_unref`. -/
def packet_queue_put (sizeof_node : Nat) (q : PacketQueue) (pkt : PktArg)
    (malloc_ok : Bool) : Int × PacketQueue × Bool :=
  let r := packet_queue_put_private sizeof_node q pkt malloc_ok
  (r.1, r.2, decide (pkt ≠ PktArg.flush_marker ∧ r.1 < 0))

/-- `packet_queue_init` (with mutex and condition variable created): the struct is
zeroed and `abort_request` set. -/
def packet_queue_init : PacketQueue :=
  { pkts := [], recycle_pkt := [], recycle_count := 0, alloc_count := 0,
    nb_packets := 0, size := 0, duration := 0, abort_request := 1, serial := 0 }

/-- `packet_queue_flush`: every node is unreferenced and pushed on the free list
(so the free list receives them in reverse order); the counters are zeroed. -/
def packet_queue_flush (q : PacketQueue) : PacketQueue :=
  { q with
      recycle_pkt :=
        q.pkts.foldl (fun rc n => { n with pkt := av_packet_unref n.pkt } :: rc) q.recycle_pkt,
      pkts := [],
      nb_packets := 0,
      size := 0,
      duration := 0 }

/-- `packet_queue_abort`. -/
def packet_queue_abort (q : PacketQueue) : PacketQueue :=
  { q with abort_request := 1 }

/-- `packet_queue_start`. -/
def packet_queue_start (sizeof_node : Nat) (q : PacketQueue) (malloc_ok : Bool) :
    PacketQueue :=
  (packet_queue_put_private sizeof_node { q with abort_request := 0 }
    PktArg.flush_marker malloc_ok).2

/-- What a call of `packet_queue_get` does: it returns `ret` (with `*pkt` and
`*serial` filled in when `ret = 1`), or it sleeps in `SDL_CondWait`. -/
inductive GetOutcome where
  | returned (ret : Int) (out : Option (AVPacket × Int))
  | waiting
deriving DecidableEq, Repr

/-- `packet_queue_get`: one pass of the `for (;;)` body.  On `waiting` the queue is
untouched and the body is run again once the condition variable is signalled. -/
def packet_queue_get (sizeof_node : Nat) (q : PacketQueue) (block : Int) :
    GetOutcome × PacketQueue :=
  if q.abort_request ≠ 0 then (GetOutcome.returned (-1) none, q)
  else
    match q.pkts with
    | pkt1 :: rest =>
      (GetOutcome.returned 1 (some (pkt1.pkt, pkt1.serial)),
       { q with
           pkts := rest,
           nb_packets := q.nb_packets - 1,
           size := q.size - (pkt1.pkt.size + (sizeof_node : Int)),
           duration := q.duration - pkt1.pkt.duration,
           recycle_pkt := pkt1 :: q.recycle_pkt })
    | [] =>
      if block = 0 then (GetOutcome.returned 0 none, q)
      else (GetOutcome.waiting, q)

/-! ## Sequences of calls -/

/-- A call on a packet queue. -/
inductive PQOp where
  | put (pkt : PktArg) (malloc_ok : Bool)
  | get (block : Int)
deriving DecidableEq, Repr

/-- A queue together with the record of what the calls made so far did:
`put_ok` lists, in call order, the packets whose put returned 0 with the queue
serial in force right after that put; `got` lists the packets and serials that gets
returning 1 handed out. -/
structure History where
  q : PacketQueue
  put_ok : List (AVPacket × Int)
  got : List (AVPacket × Int)
deriving DecidableEq, Repr

/-- Perform one call and record its effect. -/
def History.step (sizeof_node : Nat) (h : History) : PQOp → History
  | PQOp.put pkt malloc_ok =>
    let r := packet_queue_put sizeof_node h.q pkt malloc_ok
    { h with
        q := r.2.1,
        put_ok := if r.1 = 0 then h.put_ok ++ [(pkt.deref, r.2.1.serial)] else h.put_ok }
  | PQOp.get block =>
    match packet_queue_get sizeof_node h.q block with
    | (GetOutcome.returned 1 (some out), q1) => { h with q := q1, got := h.got ++ [out] }
    | (_, q1) => { h with q := q1 }

/-- Perform a sequence of calls starting with an empty record. -/
def run (sizeof_node : Nat) (q : PacketQueue) (ops : List PQOp) : History :=
  ops.foldl (History.step sizeof_node) { q := q, put_ok := [], got := [] }

/-- The packet and serial held by a node. -/
def node_view (n : MyAVPacketList) : AVPacket × Int := (n.pkt, n.serial)

/-- Byte total that a list of packets contributes to `size`. -/
def bytes_of (sizeof_node : Nat) (l : List (AVPacket × Int)) : Int :=
  (l.map (fun p => p.1.size + (sizeof_node : Int))).sum

/-- Total that a list of packets contributes to `duration`. -/
def duration_of (l : List (AVPacket × Int)) : Int :=
  (l.map (fun p => p.1.duration)).sum

/-- Put the packets of a list in order, every node allocation succeeding. -/
def put_list (sizeof_node : Nat) (q : PacketQueue) (ps : List PktArg) : PacketQueue :=
  ps.foldl (fun q p => (packet_queue_put sizeof_node q p true).2.1) q

/-- The nodes that putting a list of packets appends when the queue serial is
`serial` before the first put: a flush marker bumps the serial before it is stamped. -/
def stamp (serial : Int) : List PktArg → List MyAVPacketList
  | [] => []
  | p :: ps =>
    let s := if p = PktArg.flush_marker then serial + 1 else serial
    { pkt := p.deref, serial := s } :: stamp s ps

/-- Call `packet_queue_get` the given number of times; the outcomes in call order and
the final queue. -/
def get_n (sizeof_node : Nat) (block : Int) :
    Nat → PacketQueue → List GetOutcome × PacketQueue
  | 0, q => ([], q)
  | n + 1, q =>
    let r := packet_queue_get sizeof_node q block
    let rest := get_n sizeof_node block n r.2
    (r.1 :: rest.1, rest.2)

/-! ## Frame queue -/

/-- The cursor fields of `FrameQueue`.  The frame slots themselves (`queue[i]`) carry
no information used by the cursor logic and are left out; `pktq->abort_request` is
passed to the functions that read it. -/
structure FrameQueue where
  rindex : Int
  windex : Int
  size : Int
  max_size : Int
  keep_last : Int
  rindex_shown : Int
deriving DecidableEq, Repr

/-- `FFMIN`. -/
def FFMIN (a b : Int) : Int := if a > b then b else a

/-- `frame_queue_init` on its success path (mutex, condition variable and frames
allocated).  `FRAME_QUEUE_SIZE` is declared in `ff_ffplay_def.h` and is a parameter. -/
def frame_queue_init (FRAME_QUEUE_SIZE max_size keep_last : Int) : FrameQueue :=
  { rindex := 0, windex := 0, size := 0,
    max_size := FFMIN max_size FRAME_QUEUE_SIZE,
    keep_last := if keep_last ≠ 0 then 1 else 0,
    rindex_shown := 0 }

/-- Result of a peek that may block: a slot index, `NULL`, or a sleep in
`SDL_CondWait`. -/
inductive PeekOutcome where
  | slot (index : Int)
  | null
  | waiting
deriving DecidableEq, Repr

/-- `frame_queue_peek_writable`, given the value of `f->pktq->abort_request`. -/
def frame_queue_peek_writable (f : FrameQueue) (abort_request : Int) : PeekOutcome :=
  if f.size ≥ f.max_size ∧ abort_request = 0 then PeekOutcome.waiting
  else if abort_request ≠ 0 then PeekOutcome.null
  else PeekOutcome.slot f.windex

/-- `frame_queue_peek_readable`, given the value of `f->pktq->abort_request`. -/
def frame_queue_peek_readable (f : FrameQueue) (abort_request : Int) : PeekOutcome :=
  if f.size - f.rindex_shown ≤ 0 ∧ abort_request = 0 then PeekOutcome.waiting
  else if abort_request ≠ 0 then PeekOutcome.null
  else PeekOutcome.slot ((f.rindex + f.rindex_shown) % f.max_size)

/-- `frame_queue_push`. -/
def frame_queue_push (f : FrameQueue) : FrameQueue :=
  { f with
      windex := if f.windex + 1 = f.max_size then 0 else f.windex + 1,
      size := f.size + 1 }

/-- `frame_queue_next`. -/
def frame_queue_next (f : FrameQueue) : FrameQueue :=
  if f.keep_last ≠ 0 ∧ f.rindex_shown = 0 then { f with rindex_shown := 1 }
  else
    { f with
        rindex := if f.rindex + 1 = f.max_size then 0 else f.rindex + 1,
        size := f.size - 1 }

/-- `frame_queue_nb_remaining`. -/
def frame_queue_nb_remaining (f : FrameQueue) : Int := f.size - f.rindex_shown

/-- A call on a frame queue; `peek_writable` carries the value of the governing packet
queue's `abort_request` at the time of the call. -/
inductive FQOp where
  | peek_writable (abort_request : Int)
  | push
  | next
deriving DecidableEq, Repr

/-- A frame queue and whether the producer holds a slot handed out by the latest
`frame_queue_peek_writable`. -/
structure FQState where
  f : FrameQueue
  holding : Bool
deriving DecidableEq, Repr

/-- One call under the usage discipline: `push` needs a slot obtained from
`frame_queue_peek_writable`, `next` needs `frame_queue_nb_remaining > 0`.  A call
breaking the discipline gives `none`. -/
def fq_step (s : FQState) : FQOp → Option FQState
  | FQOp.peek_writable abort_request =>
    match frame_queue_peek_writable s.f abort_request with
    | PeekOutcome.slot _ => some { s with holding := true }
    | _ => some { s with holding := false }
  | FQOp.push =>
    if s.holding then some { f := frame_queue_push s.f, holding := false } else none
  | FQOp.next =>
    if frame_queue_nb_remaining s.f > 0 then some { s with f := frame_queue_next s.f }
    else none

/-- A sequence of calls under the usage discipline. -/
def fq_run (s : FQState) : List FQOp → Option FQState
  | [] => some s
  | op :: ops =>
    match fq_step s op with
    | some s1 => fq_run s1 ops
    | none => none

/-! ## Clocks -/

/-- A C `double` as far as the clock code is concerned: NaN or a number.  Numbers are
exact rationals (rounding, infinities and overflow are outside the model). -/
inductive Double where
  | nan
  | fin (x : ℚ)
deriving DecidableEq

/-- Addition of doubles; NaN propagates. -/
def Double.add : Double → Double → Double
  | Double.fin a, Double.fin b => Double.fin (a + b)
  | _, _ => Double.nan

/-- Subtraction of doubles; NaN propagates. -/
def Double.sub : Double → Double → Double
  | Double.fin a, Double.fin b => Double.fin (a - b)
  | _, _ => Double.nan

/-- Multiplication of doubles; NaN propagates. -/
def Double.mul : Double → Double → Double
  | Double.fin a, Double.fin b => Double.fin (a * b)
  | _, _ => Double.nan

/-- What `Clock.queue_serial` points to: the clock's own `serial` field (the external
clock: `init_clock(&is->extclk, &is->extclk.serial)`) or the `serial` of a packet
queue (`&is->videoq.serial`, `&is->audioq.serial`). -/
inductive SerialPtr where
  | own_serial
  | of_queue
deriving DecidableEq, Repr

/-- The clock. -/
structure Clock where
  pts : Double
  pts_drift : Double
  last_updated : Double
  speed : Double
  serial : Int
  paused : Int
  queue_serial : SerialPtr
deriving DecidableEq

/-- The value `*c->queue_serial`, given the current serial of the packet queue for a
clock that points into one. -/
def Clock.deref_queue_serial (c : Clock) (pktq_serial : Int) : Int :=
  match c.queue_serial with
  | SerialPtr.own_serial => c.serial
  | SerialPtr.of_queue => pktq_serial

/-- The expression `av_gettime_relative() / 1000000.0`. -/
def time_of (now_us : Int) : Double := Double.fin ((now_us : ℚ) / 1000000)

/-- `get_clock`; `now_us` is the value of `av_gettime_relative()`. -/
def get_clock (c : Clock) (pktq_serial : Int) (now_us : Int) : Double :=
  if c.deref_queue_serial pktq_serial ≠ c.serial then Double.nan
  else if c.paused ≠ 0 then c.pts
  else
    let time := time_of now_us
    Double.sub (Double.add c.pts_drift time)
      (Double.mul (Double.sub time c.last_updated) (Double.sub (Double.fin 1) c.speed))

/-- `set_clock_at`. -/
def set_clock_at (c : Clock) (pts : Double) (serial : Int) (time : Double) : Clock :=
  { c with pts := pts, last_updated := time, pts_drift := Double.sub pts time,
           serial := serial }

/-- `set_clock`. -/
def set_clock (c : Clock) (pts : Double) (serial : Int) (now_us : Int) : Clock :=
  set_clock_at c pts serial (time_of now_us)

/-- `init_clock`. -/
def init_clock (c : Clock) (queue_serial : SerialPtr) (now_us : Int) : Clock :=
  set_clock { c with speed := Double.fin 1, paused := 0, queue_serial := queue_serial }
    Double.nan (-1) now_us

/-- The counters of a queue agree with its list of nodes. -/
def Accounted (sizeof_node : Nat) (q : PacketQueue) : Prop :=
  q.nb_packets = (q.pkts.length : Int) ∧
  q.size = bytes_of sizeof_node (q.pkts.map node_view) ∧
  q.duration = duration_of (q.pkts.map node_view)

/-- A record is consistent with the queue it carries: what was handed out followed by
what is still queued is what was queued at the start (`base`) followed by what was
accepted since. -/
def History.Consistent (base : List (AVPacket × Int)) (h : History) : Prop :=
  h.got ++ h.q.pkts.map node_view = base ++ h.put_ok

/-- A list of calls that never puts the flush marker. -/
def no_flush_put (ops : List PQOp) : Prop :=
  ∀ m : Bool, PQOp.put PktArg.flush_marker m ∉ ops

/-- A started queue with nothing in it: `packet_queue_init` with `abort_request`
cleared. -/
def empty_started : PacketQueue := { packet_queue_init with abort_request := 0 }

/-- A sample video packet: 3 payload bytes, pts 100, duration 40, key frame. -/
def sample_pkt : AVPacket :=
  { data := DataPtr.buf [1, 2, 3], size := 3, pts := 100, dts := 90, duration := 40,
    flags := 1, stream_index := 0, pos := 7 }

/-- A second sample packet, with a negative duration. -/
def sample_pkt2 : AVPacket :=
  { data := DataPtr.buf [9, 8], size := 2, pts := 140, dts := 130, duration := -5,
    flags := 0, stream_index := 0, pos := 10 }

/-- A started queue holding the flush marker and two packets (serial 1). -/
def sample_queue : PacketQueue :=
  put_list 48 empty_started
    [PktArg.flush_marker, PktArg.packet sample_pkt, PktArg.packet sample_pkt2]

/-- An aborted queue that still holds the nodes of the sample queue. -/
def aborted_queue : PacketQueue := packet_queue_abort sample_queue

/-- What the usage discipline maintains on a frame queue: `size` within the capacity
and not below `rindex_shown`, and room for one more frame while the producer holds a
slot. -/
def FQInv (s : FQState) : Prop :=
  s.f.size ≤ s.f.max_size ∧ s.f.rindex_shown ≤ s.f.size ∧
  (s.holding = true → s.f.size < s.f.max_size)

/-- A frame queue as `stream_open` sets up the picture queue: capacity 3 out of
`FRAME_QUEUE_SIZE = 16`, `keep_last` set. -/
def sample_fq : FrameQueue := frame_queue_init 16 3 1

/-- A clock in zeroed memory, before `init_clock`. -/
def zero_clock : Clock :=
  { pts := Double.fin 0, pts_drift := Double.fin 0, last_updated := Double.fin 0,
    speed := Double.fin 0, serial := 0, paused := 0, queue_serial := SerialPtr.of_queue }

/-- The external clock right after `init_clock(&is->extclk, &is->extclk.serial)` at
wall time 5 s. -/
def fresh_extclk : Clock := init_clock zero_clock SerialPtr.own_serial 5000000

/-- The sample picture queue after three pushes and two advances followed by one more
push: full again, with the last shown frame kept. -/
def fq_full : FrameQueue :=
  { rindex := 1, windex := 1, size := 3, max_size := 3, keep_last := 1, rindex_shown := 1 }

/-- A `keep_last` queue holding two frames, none shown yet. -/
def fq_unshown : FrameQueue :=
  { rindex := 0, windex := 2, size := 2, max_size := 3, keep_last := 1, rindex_shown := 0 }

/-- A `keep_last` queue whose read cursor is at the last slot. -/
def fq_at_end : FrameQueue :=
  { rindex := 2, windex := 1, size := 2, max_size := 3, keep_last := 1, rindex_shown := 1 }

/-! ## Synchronisation -/

/-- Negation of doubles. -/
def Double.neg : Double → Double
  | Double.fin a => Double.fin (-a)
  | Double.nan => Double.nan

/-- FFmpeg's `AVRational`. -/
structure AVRational where
  num : Int
  den : Int
deriving DecidableEq, Repr

/-- The fields of FFmpeg's `AVStream` that the player reads. -/
structure AVStream where
  disposition : Int
  time_base : AVRational
deriving DecidableEq, Repr

/-- The enumerators `AV_SYNC_AUDIO_MASTER`, `AV_SYNC_VIDEO_MASTER` and
`AV_SYNC_EXTERNAL_CLOCK`, declared in `ff_ffplay_def.h`. -/
structure SyncEnum where
  AV_SYNC_AUDIO_MASTER : Int
  AV_SYNC_VIDEO_MASTER : Int
  AV_SYNC_EXTERNAL_CLOCK : Int
deriving DecidableEq, Repr

/-- The fields of `VideoState` used by the synchronisation and read-loop code.  A
stream pointer (`audio_st`, ...) is `none` when `NULL`. -/
structure VideoState where
  av_sync_type : Int
  audio_st : Option AVStream
  video_st : Option AVStream
  subtitle_st : Option AVStream
  audio_stream : Int
  video_stream : Int
  subtitle_stream : Int
  audioq : PacketQueue
  videoq : PacketQueue
  subtitleq : PacketQueue
  audclk : Clock
  vidclk : Clock
  extclk : Clock
  max_frame_duration : Double
  seek_req : Int
deriving DecidableEq

/-- `get_master_sync_type`. -/
def get_master_sync_type (k : SyncEnum) (is : VideoState) : Int :=
  if is.av_sync_type = k.AV_SYNC_VIDEO_MASTER then
    if is.video_st.isSome then k.AV_SYNC_VIDEO_MASTER else k.AV_SYNC_AUDIO_MASTER
  else if is.av_sync_type = k.AV_SYNC_AUDIO_MASTER then
    if is.audio_st.isSome then k.AV_SYNC_AUDIO_MASTER else k.AV_SYNC_EXTERNAL_CLOCK
  else k.AV_SYNC_EXTERNAL_CLOCK

/-- `get_master_clock`; the `switch` tests the video case first, then the audio
case.  `now_us` is the value of `av_gettime_relative()` inside `get_clock`. -/
def get_master_clock (k : SyncEnum) (is : VideoState) (now_us : Int) : Double :=
  if get_master_sync_type k is = k.AV_SYNC_VIDEO_MASTER then
    get_clock is.vidclk is.videoq.serial now_us
  else if get_master_sync_type k is = k.AV_SYNC_AUDIO_MASTER then
    get_clock is.audclk is.audioq.serial now_us
  else get_clock is.extclk is.extclk.serial now_us

/-- A running video clock written by `set_clock_at(c, 10, 3, 5)`: pts 10 s set at wall
time 5 s, serial 3, speed 1. -/
def running_clock : Clock :=
  set_clock_at { zero_clock with speed := Double.fin 1 } (Double.fin 10) 3 (Double.fin 5)

/-- The same clock, paused. -/
def paused_clock : Clock := { running_clock with paused := 1 }

/-- Enumerator values used in the examples: 0, 1, 2 in the order audio, video,
external. -/
def sample_sync : SyncEnum :=
  { AV_SYNC_AUDIO_MASTER := 0, AV_SYNC_VIDEO_MASTER := 1, AV_SYNC_EXTERNAL_CLOCK := 2 }

/-- A video clock valid for the sample queue (serial 1): pts 10 s set at wall time
5 s, speed 1. -/
def sample_vidclk : Clock :=
  set_clock_at { zero_clock with speed := Double.fin 1 } (Double.fin 10) 1 (Double.fin 5)

/-- An audio clock valid for a queue of serial 0: pts 10.5 s set at wall time 5 s. -/
def sample_audclk : Clock :=
  set_clock_at { zero_clock with speed := Double.fin 1 } (Double.fin (21 / 2)) 0
    (Double.fin 5)

/-- A plain stream with time base 1/1000. -/
def sample_stream : AVStream := { disposition := 0, time_base := { num := 1, den := 1000 } }

/-- A session configured for video-master that has neither a video nor an audio
stream. -/
def no_streams_is : VideoState :=
  { av_sync_type := 1, audio_st := none, video_st := none, subtitle_st := none,
    audio_stream := -1, video_stream := -1, subtitle_stream := -1,
    audioq := empty_started, videoq := sample_queue, subtitleq := packet_queue_init,
    audclk := sample_audclk, vidclk := sample_vidclk, extclk := fresh_extclk,
    max_frame_duration := Double.fin 10, seek_req := 0 }

/-- A session configured for audio-master with an audio and a video stream. -/
def av_is : VideoState :=
  { no_streams_is with
      av_sync_type := 0, audio_st := some sample_stream, video_st := some sample_stream,
      audio_stream := 1, video_stream := 0 }

/-- FFmpeg's `AV_PKT_FLAG_KEY` (0x0001). -/
def AV_PKT_FLAG_KEY : Int := 1

/-- FFmpeg's `AV_DISPOSITION_ATTACHED_PIC` (0x0400). -/
def AV_DISPOSITION_ATTACHED_PIC : Int := 1024

/-- FFmpeg's `av_free_packet`: the payload is released. -/
def av_free_packet (p : AVPacket) : AVPacket := { p with data := DataPtr.null, size := 0 }

/-- The test on which the loop of `drop_queue_until_pts` stops at a node:
`(pkt1->pkt.flags & AV_PKT_FLAG_KEY) && pkt1->pkt.pts >= drop_to_pts`. -/
def stops_drop (drop_to_pts : Int) (pkt1 : MyAVPacketList) : Bool :=
  decide (Int.land pkt1.pkt.flags AV_PKT_FLAG_KEY ≠ 0 ∧ pkt1.pkt.pts ≥ drop_to_pts)

/-- The `for (;;)` loop of `drop_queue_until_pts`, run on the chain that starts at
`q->first_pkt`; the last argument is `del_nb_packets`. -/
def drop_loop (sizeof_node : Nat) (drop_to_pts : Int) :
    List MyAVPacketList → PacketQueue → Int → PacketQueue × Int
  | [], q, del => ({ q with pkts := [] }, del)
  | pkt1 :: rest, q, del =>
    if stops_drop drop_to_pts pkt1 then ({ q with pkts := pkt1 :: rest }, del)
    else
      drop_loop sizeof_node drop_to_pts rest
        { q with
            pkts := rest,
            nb_packets := q.nb_packets - 1,
            size := q.size - (pkt1.pkt.size + (sizeof_node : Int)),
            duration :=
              if pkt1.pkt.duration > 0 then q.duration - pkt1.pkt.duration else q.duration,
            recycle_pkt := { pkt1 with pkt := av_free_packet pkt1.pkt } :: q.recycle_pkt }
        (del + 1)

/-- `drop_queue_until_pts`: the new queue and the logged `del_nb_packets`. -/
def drop_queue_until_pts (sizeof_node : Nat) (q : PacketQueue) (drop_to_pts : Int) :
    PacketQueue × Int :=
  drop_loop sizeof_node drop_to_pts q.pkts q 0

/-- `stream_has_enough_packets` (the build without `FFP_MERGE`).  The result is `none`
when `st` is dereferenced while `NULL`. -/
def stream_has_enough_packets (st : Option AVStream) (stream_id : Int)
    (queue : PacketQueue) (min_frames : Int) : Option Bool :=
  if stream_id < 0 then some true
  else if queue.abort_request ≠ 0 then some true
  else
    match st with
    | none => none
    | some s =>
      some (decide (Int.land s.disposition AV_DISPOSITION_ATTACHED_PIC ≠ 0) ||
            decide (queue.nb_packets > min_frames))

/-- The C operator `&&` on a fallible left operand and a right operand that is only
evaluated when the left one is true. -/
def and_then (a b : Option Bool) : Option Bool :=
  match a with
  | none => none
  | some false => some false
  | some true => b

/-- The test of `read_thread` under the comment "if the queue are full, no need to
read more": when it yields `true` the loop waits 10 ms on `continue_read_thread` and
starts over without reading.  `infinite_buffer` and `max_buffer_size` are
`ffp->infinite_buffer` and `ffp->dcc.max_buffer_size`; `MIN_FRAMES` is a macro of
`ff_ffplay_def.h`. -/
def read_thread_queues_full (infinite_buffer max_buffer_size MIN_FRAMES : Int)
    (is : VideoState) : Option Bool :=
  if infinite_buffer < 1 ∧ is.seek_req = 0 then
    if is.audioq.size + is.videoq.size + is.subtitleq.size > max_buffer_size then some true
    else
      and_then (stream_has_enough_packets is.audio_st is.audio_stream is.audioq MIN_FRAMES)
        (and_then
          (stream_has_enough_packets is.video_st is.video_stream is.videoq MIN_FRAMES)
          (stream_has_enough_packets is.subtitle_st is.subtitle_stream is.subtitleq
            MIN_FRAMES))
  else some false

/-- FFmpeg's `av_rescale(a, b, c)`: `a * b / c` rounded to the nearest integer, halves
away from zero; `INT64_MIN` when `c <= 0` or `b < 0`. -/
def av_rescale (a b c : Int) : Int :=
  if c ≤ 0 ∨ b < 0 then -9223372036854775808
  else if a < 0 then -((-a * b + c / 2) / c)
  else (a * b + c / 2) / c

/-- The fields of `ffp->dcc` used by the buffering check. -/
structure FFDemuxCacheControl where
  max_buffer_size : Int
  high_water_mark_in_bytes : Int
  first_high_water_mark_in_ms : Int
  next_high_water_mark_in_ms : Int
  last_high_water_mark_in_ms : Int
  current_high_water_mark_in_ms : Int
deriving DecidableEq, Repr

/-- What `ffp_check_buffering_l` reads from `ffp`: the cache control block and the
cached durations `ffp->stat.audio_cache.duration`, `ffp->stat.video_cache.duration`. -/
structure BufferingInput where
  dcc : FFDemuxCacheControl
  audio_cache_duration : Int
  video_cache_duration : Int
deriving DecidableEq, Repr

/-- What `ffp_check_buffering_l` computes and does: the local percentages, the
arguments of the `FFP_MSG_BUFFERING_UPDATE` notification when one is sent, the value
stored in `ffp->playable_duration_ms` when one is stored, the value of
`ffp->dcc.current_high_water_mark_in_ms` afterwards, and whether
`ffp_toggle_buffering(ffp, 0)` is called. -/
structure BufferingResult where
  buf_time_percent : Int
  buf_size_percent : Int
  buf_percent : Int
  need_start_buffering : Bool
  notified : Option (Int × Int)
  playable_duration_ms : Option Int
  current_high_water_mark_in_ms : Int
  buffering_off : Bool
deriving DecidableEq, Repr

/-- Whether a stream is present with a valid time base
(`is->audio_st && audio_time_base_valid`). -/
def time_base_valid (st : Option AVStream) : Bool :=
  match st with
  | some s => decide (s.time_base.den > 0 ∧ s.time_base.num > 0)
  | none => false

/-- The local `cached_duration_in_ms` of `ffp_check_buffering_l` for a positive
current high-water mark (`IJKMIN` being the minimum), -1 when no stream has a
positive cached duration. -/
def cached_duration_in_ms (b : BufferingInput) (is : VideoState) : Int :=
  let audio_cached_duration := if time_base_valid is.audio_st then b.audio_cache_duration else -1
  let video_cached_duration := if time_base_valid is.video_st then b.video_cache_duration else -1
  if video_cached_duration > 0 ∧ audio_cached_duration > 0 then
    min video_cached_duration audio_cached_duration
  else if video_cached_duration > 0 then video_cached_duration
  else if audio_cached_duration > 0 then audio_cached_duration
  else -1

/-- `ffp_check_buffering_l`.  `current_position` is the value of
`ffp_get_current_position_l(ffp)`, `indicator_nb_packets` the `nb_packets` of
`is->buffer_indicator_queue` (`none` when that pointer is `NULL`), `MIN_MIN_FRAMES` a
macro of `ff_ffplay_def.h`. -/
def ffp_check_buffering_l (MIN_MIN_FRAMES : Int) (b : BufferingInput) (is : VideoState)
    (current_position : Int) (indicator_nb_packets : Option Int) : BufferingResult :=
  let hwm_in_ms := b.dcc.current_high_water_mark_in_ms
  let hwm_in_bytes := b.dcc.high_water_mark_in_bytes
  let cached := if hwm_in_ms > 0 then cached_duration_in_ms b is else -1
  let time_known : Bool := decide (hwm_in_ms > 0 ∧ cached ≥ 0)
  let buf_time_position := if time_known then current_position + cached else -1
  let buf_time_percent := if time_known then av_rescale cached 1005 (hwm_in_ms * 10) else -1
  let cached_size := is.audioq.size + is.videoq.size
  let buf_size_percent :=
    if hwm_in_bytes > 0 then av_rescale cached_size 1005 (hwm_in_bytes * 10) else -1
  let need_start_buffering : Bool :=
    if buf_time_percent ≥ 0 then decide (buf_time_percent ≥ 100)
    else decide (buf_size_percent ≥ 100)
  let buf_percent0 := if buf_time_percent ≥ 0 then buf_time_percent else buf_size_percent
  let buf_percent :=
    if buf_time_percent ≥ 0 ∧ buf_size_percent ≥ 0 then FFMIN buf_time_percent buf_size_percent
    else buf_percent0
  let hwm1 :=
    if hwm_in_ms < b.dcc.next_high_water_mark_in_ms then b.dcc.next_high_water_mark_in_ms
    else hwm_in_ms * 2
  let hwm2 :=
    if hwm1 > b.dcc.last_high_water_mark_in_ms then b.dcc.last_high_water_mark_in_ms else hwm1
  { buf_time_percent := buf_time_percent,
    buf_size_percent := buf_size_percent,
    buf_percent := buf_percent,
    need_start_buffering := need_start_buffering,
    notified := if buf_percent ≠ 0 then some (buf_time_position, buf_percent) else none,
    playable_duration_ms := if time_known then some buf_time_position else none,
    current_high_water_mark_in_ms := if need_start_buffering then hwm2 else hwm_in_ms,
    buffering_off :=
      need_start_buffering &&
        (match indicator_nb_packets with
         | some n => decide (n > 0)
         | none => false) &&
        (decide (is.audioq.nb_packets > MIN_MIN_FRAMES) || decide (is.audio_stream < 0) ||
          decide (is.audioq.abort_request ≠ 0)) &&
        (decide (is.videoq.nb_packets > MIN_MIN_FRAMES) || decide (is.video_stream < 0) ||
          decide (is.videoq.abort_request ≠ 0)) }

/-- The condition "the stream has enough packets" in words: the stream is absent
(index below 0), or its queue is aborted, or it is an attached picture, or its queue
holds strictly more than `min_frames` packets. -/
def has_enough_packets (st : Option AVStream) (stream_id : Int) (queue : PacketQueue)
    (min_frames : Int) : Prop :=
  stream_id < 0 ∨ queue.abort_request ≠ 0 ∨
  (∃ s, st = some s ∧ Int.land s.disposition AV_DISPOSITION_ATTACHED_PIC ≠ 0) ∨
  queue.nb_packets > min_frames

/-- A session with an audio and a video stream whose video queue holds 3 packets and
whose subtitle stream is absent. -/
def playing_is : VideoState := { av_is with subtitle_stream := -1 }

/-- A cache control block on its first high-water mark: marks of 100 ms, 1000 ms and
5000 ms, the current one being the first; 256 KiB byte mark. -/
def first_mark_dcc : FFDemuxCacheControl :=
  { max_buffer_size := 15728640, high_water_mark_in_bytes := 262144,
    first_high_water_mark_in_ms := 100, next_high_water_mark_in_ms := 1000,
    last_high_water_mark_in_ms := 5000, current_high_water_mark_in_ms := 100 }

/-- Buffering input with 200 ms of audio and 300 ms of video cached, on the first
high-water mark. -/
def first_mark_input : BufferingInput :=
  { dcc := first_mark_dcc, audio_cache_duration := 200, video_cache_duration := 300 }

/-- The same caches once the current high-water mark has reached 1000 ms, with
2500 ms of audio and 2600 ms of video cached. -/
def next_mark_input : BufferingInput :=
  { dcc := { first_mark_dcc with current_high_water_mark_in_ms := 1000 },
    audio_cache_duration := 2500, video_cache_duration := 2600 }

/-- A video packet with the given pts and flags (40 ms long, 3 payload bytes). -/
def video_pkt (pts flags : Int) : AVPacket := { sample_pkt with pts := pts, flags := flags }

/-- A started queue holding one and a half groups of pictures: a non-key frame at pts
100, a key frame at 120, a non-key frame at 140 and a key frame at 160. -/
def gop_queue : PacketQueue :=
  put_list 48 empty_started
    [PktArg.packet (video_pkt 100 0), PktArg.packet (video_pkt 120 1),
     PktArg.packet (video_pkt 140 0), PktArg.packet (video_pkt 160 1)]

/-- What the usage discipline maintains on the cursors of a frame queue: both cursors
within `0 .. max_size - 1`, `size` within `0 .. max_size`, the write cursor `size`
slots after the read cursor (modulo `max_size`), `rindex_shown` within `0 .. size`, and
room for one more frame while the producer holds a slot. -/
def FQCursors (s : FQState) : Prop :=
  (0 ≤ s.f.rindex ∧ s.f.rindex < s.f.max_size) ∧
  (0 ≤ s.f.windex ∧ s.f.windex < s.f.max_size) ∧
  (0 ≤ s.f.size ∧ s.f.size ≤ s.f.max_size) ∧
  s.f.windex = (s.f.rindex + s.f.size) % s.f.max_size ∧
  (0 ≤ s.f.rindex_shown ∧ s.f.rindex_shown ≤ s.f.size) ∧
  (s.holding = true → s.f.size < s.f.max_size)

/-- A started queue holding a non-key packet of duration -5 followed by a key frame of
duration 40 at pts 160. -/
def negative_duration_queue : PacketQueue :=
  put_list 48 empty_started [PktArg.packet sample_pkt2, PktArg.packet (video_pkt 160 1)]

/-! ## Audio pacing and looping -/

/-- The test of `read_thread` for the natural end of playback: not paused (or already
completed), and each present stream has its decoder finished for the current serial
and its frame queue drained. -/
def at_natural_end (paused completed : Int) (is : VideoState)
    (auddec_finished viddec_finished : Int) (sampq pictq : FrameQueue) : Bool :=
  decide ((paused = 0 ∨ completed ≠ 0) ∧
    (is.audio_st = none ∨
      (auddec_finished = is.audioq.serial ∧ frame_queue_nb_remaining sampq = 0)) ∧
    (is.video_st = none ∨
      (viddec_finished = is.videoq.serial ∧ frame_queue_nb_remaining pictq = 0)))

/-- What `read_thread` does at a natural end of playback. -/
inductive EndAction where
  | seek_to_start
  | exit_eof
  | complete
deriving DecidableEq, Repr

/-- The decision of `read_thread` at a natural end,
`if (ffp->loop != 1 && (!ffp->loop || --ffp->loop))`: the action and the value of
`ffp->loop` afterwards. -/
def natural_end_action (loop autoexit : Int) : EndAction × Int :=
  if loop ≠ 1 then
    if loop = 0 then (EndAction.seek_to_start, loop)
    else if loop - 1 ≠ 0 then (EndAction.seek_to_start, loop - 1)
    else (if autoexit ≠ 0 then EndAction.exit_eof else EndAction.complete, loop - 1)
  else (if autoexit ≠ 0 then EndAction.exit_eof else EndAction.complete, loop)

/-- The number of times the stream is played until a natural end does not seek back to
the start, following at most `fuel` natural ends; `none` when playback is still
looping after that many. -/
def plays_until_complete (autoexit : Int) : Nat → Int → Option Nat
  | 0, _ => none
  | fuel + 1, loop =>
    match natural_end_action loop autoexit with
    | (EndAction.seek_to_start, loop1) =>
      (plays_until_complete autoexit fuel loop1).map (fun n => n + 1)
    | _ => some 1

/-- A binary64 value. -/
inductive Binary64 where
  | nan
  | inf (negative : Bool)
  | fin (m : Int) (e : Int)
deriving DecidableEq, Repr

/-- The number of binary digits of `n`, for a fuel of at least that number (`n` itself
is enough). -/
def bit_length : Nat → Nat → Nat
  | 0, _ => 0
  | fuel + 1, n => if n = 0 then 0 else bit_length fuel (n / 2) + 1

/-- The numerator of `num / den * 2 ^ (k - e)` written as a fraction of naturals. -/
def scaled_num (num : Nat) (k e : Int) : Nat :=
  if e ≤ k then num * 2 ^ (k - e).toNat else num

/-- The denominator of `num / den * 2 ^ (k - e)` written as a fraction of naturals. -/
def scaled_den (den : Nat) (k e : Int) : Nat :=
  if e ≤ k then den else den * 2 ^ (e - k).toNat

/-- The integer nearest to `num / den * 2 ^ (k - e)`, the even one of two that are
equally near. -/
def round_at (num den : Nat) (k e : Int) : Nat :=
  let q := scaled_num num k e / scaled_den den k e
  let r := scaled_num num k e % scaled_den den k e
  if scaled_den den k e < 2 * r ∨ (2 * r = scaled_den den k e ∧ q % 2 = 1) then q + 1 else q

/-- The exponent at which `num / den * 2 ^ k` has a mantissa of 53 digits, and -1074 for
a value too small for that (a subnormal number). -/
def round_exponent (num den : Nat) (k : Int) : Int :=
  let e1 : Int :=
    max ((bit_length num num : Int) - (bit_length den den : Int) + k - 53) (-1074)
  if 2 ^ 53 ≤ scaled_num num k e1 / scaled_den den k e1 then e1 + 1 else e1

/-- The mantissa and exponent of the binary64 value nearest to `num / den * 2 ^ k`, or
nothing when that value is beyond the largest finite one. -/
def round_magnitude (num den : Nat) (k : Int) : Option (Nat × Int) :=
  if num = 0 then some (0, -1074)
  else
    let e := round_exponent num den k
    let m := round_at num den k e
    if m = 2 ^ 53 then (if 971 < e + 1 then none else some (2 ^ 52, e + 1))
    else if 971 < e then none else some (m, e)

/-- The binary64 value nearest to `num / den * 2 ^ k` with the given sign. -/
def Binary64.round (negative : Bool) (num den : Nat) (k : Int) : Binary64 :=
  match round_magnitude num den k with
  | none => Binary64.inf negative
  | some (m, e) => Binary64.fin (if negative then -(m : Int) else (m : Int)) e

/-- The binary64 value nearest to `n / den * 2 ^ k`. -/
def Binary64.of_scaled (n : Int) (den : Nat) (k : Int) : Binary64 :=
  Binary64.round (decide (n < 0)) n.natAbs den k

/-- The conversion `(double) i` of an integer. -/
def Binary64.of_int (i : Int) : Binary64 := Binary64.of_scaled i 1 0

/-- The negation `-x`. -/
def Binary64.neg : Binary64 → Binary64
  | Binary64.nan => Binary64.nan
  | Binary64.inf s => Binary64.inf (!s)
  | Binary64.fin m e => Binary64.fin (-m) e

/-- The sum `x + y`. -/
def Binary64.add : Binary64 → Binary64 → Binary64
  | Binary64.nan, _ => Binary64.nan
  | _, Binary64.nan => Binary64.nan
  | Binary64.inf a, Binary64.inf b => if a = b then Binary64.inf a else Binary64.nan
  | Binary64.inf a, Binary64.fin _ _ => Binary64.inf a
  | Binary64.fin _ _, Binary64.inf b => Binary64.inf b
  | Binary64.fin m1 e1, Binary64.fin m2 e2 =>
    Binary64.of_scaled (m1 * 2 ^ (e1 - min e1 e2).toNat + m2 * 2 ^ (e2 - min e1 e2).toNat) 1
      (min e1 e2)

/-- The difference `x - y`. -/
def Binary64.sub (x y : Binary64) : Binary64 := Binary64.add x (Binary64.neg y)

/-- The product `x * y`. -/
def Binary64.mul : Binary64 → Binary64 → Binary64
  | Binary64.nan, _ => Binary64.nan
  | _, Binary64.nan => Binary64.nan
  | Binary64.inf a, Binary64.inf b => Binary64.inf (a != b)
  | Binary64.inf a, Binary64.fin m _ =>
    if m = 0 then Binary64.nan else Binary64.inf (a != decide (m < 0))
  | Binary64.fin m _, Binary64.inf b =>
    if m = 0 then Binary64.nan else Binary64.inf (decide (m < 0) != b)
  | Binary64.fin m1 e1, Binary64.fin m2 e2 => Binary64.of_scaled (m1 * m2) 1 (e1 + e2)

/-- The quotient `x / y`; a zero divisor counts as positive. -/
def Binary64.div : Binary64 → Binary64 → Binary64
  | Binary64.nan, _ => Binary64.nan
  | _, Binary64.nan => Binary64.nan
  | Binary64.inf _, Binary64.inf _ => Binary64.nan
  | Binary64.inf a, Binary64.fin m _ => Binary64.inf (a != decide (m < 0))
  | Binary64.fin _ _, Binary64.inf _ => Binary64.fin 0 (-1074)
  | Binary64.fin m1 e1, Binary64.fin m2 e2 =>
    if m2 = 0 then (if m1 = 0 then Binary64.nan else Binary64.inf (decide (m1 < 0)))
    else Binary64.of_scaled (if m2 < 0 then -m1 else m1) m2.natAbs (e1 - e2)

/-- Whether a value is a finite number. -/
def Binary64.is_finite : Binary64 → Bool
  | Binary64.fin _ _ => true
  | _ => false

/-- The clock, with its `double` fields in binary64. -/
structure Rounded.Clock where
  pts : Binary64
  pts_drift : Binary64
  last_updated : Binary64
  speed : Binary64
  serial : Int
  paused : Int
  queue_serial : SerialPtr
deriving DecidableEq, Repr

/-- The value `*c->queue_serial`, given the current serial of the packet queue for a
clock that points into one. -/
def Rounded.Clock.deref_queue_serial (c : Rounded.Clock) (pktq_serial : Int) : Int :=
  match c.queue_serial with
  | SerialPtr.own_serial => c.serial
  | SerialPtr.of_queue => pktq_serial

/-- The expression `av_gettime_relative() / 1000000.0` in binary64. -/
def Rounded.time_of (now_us : Int) : Binary64 :=
  Binary64.div (Binary64.of_int now_us) (Binary64.of_int 1000000)

/-- `get_clock` in binary64; `now_us` is the value of `av_gettime_relative()`. -/
def Rounded.get_clock (c : Rounded.Clock) (pktq_serial : Int) (now_us : Int) : Binary64 :=
  if c.deref_queue_serial pktq_serial ≠ c.serial then Binary64.nan
  else if c.paused ≠ 0 then c.pts
  else
    Binary64.sub (Binary64.add c.pts_drift (Rounded.time_of now_us))
      (Binary64.mul (Binary64.sub (Rounded.time_of now_us) c.last_updated)
        (Binary64.sub (Binary64.of_int 1) c.speed))

/-- `set_clock_at` in binary64. -/
def Rounded.set_clock_at (c : Rounded.Clock) (pts : Binary64) (serial : Int)
    (time : Binary64) : Rounded.Clock :=
  { c with pts := pts, last_updated := time, pts_drift := Binary64.sub pts time,
           serial := serial }

/-! ## Play range and dispatch -/

/-- The time base 1/1000 (milliseconds). -/
def ms_time_base : AVRational := { num := 1, den := 1000 }

/-- `RB_ERR_OK`. -/
def RB_ERR_OK : Int := 0

/-- `RB_ENOMEM`. -/
def RB_ENOMEM : Int := 12

/-- `RB_EFULL`. -/
def RB_EFULL : Int := 28

/-- One slot of the ring buffer.  `buffer` is `none` for `NULL`, else the bytes of the
allocated block (the block is as long as the list). -/
structure item_data where
  buffer : Option (List Nat)
  length : Int
  ts : Nat
deriving DecidableEq, Repr

/-- The ring buffer. -/
structure pcm_ring_buffer where
  r_pos : Int
  w_pos : Int
  nitem : Int
  item_array : List item_data
deriving DecidableEq, Repr

/-- The macro `ring_buffer_empty`. -/
def ring_buffer_empty (prb : pcm_ring_buffer) : Bool := decide (prb.r_pos = prb.w_pos)

/-- The macro `ring_buffer_full`. -/
def ring_buffer_full (prb : pcm_ring_buffer) : Bool :=
  decide ((prb.w_pos + 1) % prb.nitem = prb.r_pos)

/-- `ring_buffer_init`; `malloc_ok` tells whether `malloc` returns a block. -/
def ring_buffer_init (prb : pcm_ring_buffer) (nitem : Int) (malloc_ok : Bool) :
    Int × pcm_ring_buffer :=
  if malloc_ok = false then (RB_ENOMEM, { prb with nitem := 0, item_array := [] })
  else
    (0, { r_pos := 0, w_pos := 0, nitem := nitem,
          item_array := List.replicate nitem.toNat { buffer := none, length := 0, ts := 0 } })

/-- The slot `item_array[i]`, `none` when `i` is outside the array. -/
def slot_at (prb : pcm_ring_buffer) (i : Int) : Option item_data :=
  if 0 ≤ i then prb.item_array.get? i.toNat else none

/-- `memcpy(dst, src, n)` on blocks given with their contents: `none` when `n` bytes do
not fit in the destination block or are not there in the source block (undefined
behaviour). -/
def memcpy (dst src : List Nat) (n : Int) : Option (List Nat) :=
  if 0 ≤ n ∧ n.toNat ≤ dst.length ∧ n.toNat ≤ src.length then
    some (src.take n.toNat ++ dst.drop n.toNat)
  else none

/-- `ring_buffer_push`.  `buffer` is the source block, `malloc_ok` tells whether
`malloc(length)` returns a block (a negative `length` makes it fail).  The result is
the return value and the new ring buffer, or `none` when the call runs into undefined
behaviour (a slot outside the array, or a `memcpy` beyond a block). -/
def ring_buffer_push (prb : pcm_ring_buffer) (buffer : List Nat) (length : Int) (ts : Nat)
    (malloc_ok : Bool) : Option (Int × pcm_ring_buffer) :=
  if ring_buffer_full prb then some (RB_EFULL, prb)
  else
    match slot_at prb prb.w_pos with
    | none => none
    | some item =>
      let alloc : Option item_data :=
        match item.buffer with
        | some _ => some item
        | none =>
          if malloc_ok = false ∨ length < 0 then none
          else some { item with buffer := some (List.replicate length.toNat 0),
                                length := length }
      match alloc with
      | none => some (RB_ENOMEM, prb)
      | some item1 =>
        match memcpy (item1.buffer.getD []) buffer length with
        | none => none
        | some bytes =>
          some (0, { prb with
                       item_array :=
                         prb.item_array.set prb.w_pos.toNat
                           { item1 with buffer := some bytes, ts := ts },
                       w_pos := (prb.w_pos + 1) % prb.nitem })

/-- `ring_buffer_peek`: the position of the slot whose address is returned, `none` for
`NULL`. -/
def ring_buffer_peek (prb : pcm_ring_buffer) : Option Int :=
  if ring_buffer_empty prb then none else some prb.r_pos

/-- `ring_buffer_pop`. -/
def ring_buffer_pop (prb : pcm_ring_buffer) : pcm_ring_buffer :=
  { prb with r_pos := (prb.r_pos + 1) % prb.nitem }

/-- `ring_buffer_reset`. -/
def ring_buffer_reset (prb : pcm_ring_buffer) : pcm_ring_buffer :=
  { prb with r_pos := 0, w_pos := 0 }

/-- `ring_buffer_available`. -/
def ring_buffer_available (prb : pcm_ring_buffer) : Int :=
  if prb.w_pos ≥ prb.r_pos then prb.w_pos - prb.r_pos
  else prb.nitem + prb.w_pos - prb.r_pos

/-- A call on a ring buffer. -/
inductive RBOp where
  | push (buffer : List Nat) (length : Int) (ts : Nat) (malloc_ok : Bool)
  | pop
deriving DecidableEq, Repr

/-- A ring buffer with the number of pushes that returned 0 and the number of pops made
so far. -/
structure RBState where
  prb : pcm_ring_buffer
  pushes : Nat
  pops : Nat
deriving DecidableEq, Repr

/-- One call under the usage discipline: a pop needs a non-empty buffer; a call that
breaks the discipline or runs into undefined behaviour gives `none`. -/
def rb_step (s : RBState) : RBOp → Option RBState
  | RBOp.push buffer length ts malloc_ok =>
    match ring_buffer_push s.prb buffer length ts malloc_ok with
    | none => none
    | some (ret, prb1) =>
      some { s with prb := prb1, pushes := if ret = 0 then s.pushes + 1 else s.pushes }
  | RBOp.pop =>
    if ring_buffer_empty s.prb then none
    else some { s with prb := ring_buffer_pop s.prb, pops := s.pops + 1 }

/-- A sequence of calls under the usage discipline. -/
def rb_run (s : RBState) : List RBOp → Option RBState
  | [] => some s
  | op :: ops =>
    match rb_step s op with
    | some s1 => rb_run s1 ops
    | none => none

/-- What the usage discipline maintains on a ring buffer: both positions within
`0 .. nitem - 1`, as many slots as `nitem`, and as many items available as were pushed
and not popped. -/
def RBInv (s : RBState) : Prop :=
  (0 ≤ s.prb.r_pos ∧ s.prb.r_pos < s.prb.nitem) ∧
  (0 ≤ s.prb.w_pos ∧ s.prb.w_pos < s.prb.nitem) ∧
  (s.prb.item_array.length : Int) = s.prb.nitem ∧
  s.pops ≤ s.pushes ∧
  ring_buffer_available s.prb = (s.pushes : Int) - (s.pops : Int)

/-- A ring buffer in zeroed memory, before `ring_buffer_init`. -/
def zero_rb : pcm_ring_buffer := { r_pos := 0, w_pos := 0, nitem := 0, item_array := [] }

/-- A ring buffer of 2 slots whose slot 0 was filled by a push of 4 bytes and read
again, as was slot 1 with 2 bytes: empty, with the write position back at slot 0. -/
def reused_rb : Option RBState :=
  rb_run { prb := (ring_buffer_init zero_rb 2 true).2, pushes := 0, pops := 0 }
    [RBOp.push [1, 2, 3, 4] 4 100 true, RBOp.pop, RBOp.push [5, 6] 2 200 true, RBOp.pop]

/-- The ring buffer of `reused_rb` as it should be there: both positions at 0, slot 0
still holding the 4 bytes of the first push, slot 1 the 2 bytes of the second. -/
def reused_prb : pcm_ring_buffer :=
  { r_pos := 0, w_pos := 0, nitem := 2,
    item_array := [{ buffer := some [1, 2, 3, 4], length := 4, ts := 100 },
                   { buffer := some [5, 6], length := 2, ts := 200 }] }

/-- A ring buffer of 3 slots after three pushes of 2 bytes and one pop: 2 items
available, which is all it can hold. -/
def full_prb : pcm_ring_buffer :=
  { r_pos := 1, w_pos := 0, nitem := 3,
    item_array := [{ buffer := some [1, 2], length := 2, ts := 10 },
                   { buffer := some [3, 4], length := 2, ts := 20 },
                   { buffer := some [5, 6], length := 2, ts := 30 }] }

/-! ## Recording -/

/-- The four variables `first_rec_pts`, `first_rec_dts`, `first_audio_rec_pts` and
`first_audio_rec_dts` of `read_thread`, 0 when recording starts. -/
structure RecordFirst where
  first_rec_pts : Int
  first_rec_dts : Int
  first_audio_rec_pts : Int
  first_audio_rec_dts : Int
deriving DecidableEq, Repr

/-- FFmpeg's `av_rescale_q_rnd(a, bq, cq, AV_ROUND_NEAR_INF | AV_ROUND_PASS_MINMAX)`:
`INT64_MIN` and `INT64_MAX` pass through, other values are rescaled from time base `bq`
to time base `cq`. -/
def av_rescale_q_pass_minmax (a : Int) (bq cq : AVRational) : Int :=
  if a = AV_NOPTS_VALUE ∨ a = 9223372036854775807 then a
  else av_rescale a (bq.num * cq.den) (cq.num * bq.den)

/-- The packet `repkt` that `save_record_data` hands to `av_interleaved_write_frame`:
its pts and dts before rescaling (`rebased_pts`, `rebased_dts`) and after, the output
stream index and the copied payload (the AAC bitstream filter is not modelled).  The
fields that depend on `out_index` and `out_stream` are `none` for a packet of neither
the video nor the audio stream, for which the code leaves these variables unset. -/
structure RecordWrite where
  data : DataPtr
  size : Int
  flags : Int
  rebased_pts : Int
  rebased_dts : Int
  out_index : Option Int
  pts : Option Int
  dts : Option Int
deriving DecidableEq, Repr

/-- `save_record_data`: the packet written and the four first-timestamp variables
afterwards.  `video_out` and `audio_out` are the index and time base of the two output
streams, `in_tb` the time base of the input stream of the packet. -/
def save_record_data (is : VideoState) (video_out audio_out : Int × AVRational)
    (in_tb : AVRational) (pkt : AVPacket) (r : RecordFirst) : RecordWrite × RecordFirst :=
  let r1 : RecordFirst :=
    if pkt.stream_index = is.video_stream then
      { r with
          first_rec_pts := if r.first_rec_pts = 0 then pkt.pts else r.first_rec_pts,
          first_rec_dts := if r.first_rec_dts = 0 then pkt.dts else r.first_rec_dts }
    else r
  let r2 : RecordFirst :=
    if pkt.stream_index = is.audio_stream then
      { r1 with
          first_audio_rec_pts :=
            if r1.first_audio_rec_pts = 0 then pkt.pts else r1.first_audio_rec_pts,
          first_audio_rec_dts :=
            if r1.first_audio_rec_dts = 0 then pkt.dts else r1.first_audio_rec_dts }
    else r1
  let out : Option (Int × AVRational) :=
    if pkt.stream_index = is.audio_stream then some audio_out
    else if pkt.stream_index = is.video_stream then some video_out
    else none
  let rebased_pts :=
    pkt.pts - (if pkt.stream_index = is.video_stream then r2.first_rec_pts
               else r2.first_audio_rec_pts)
  let rebased_dts :=
    pkt.dts - (if pkt.stream_index = is.video_stream then r2.first_rec_dts
               else r2.first_audio_rec_dts)
  ({ data := pkt.data, size := pkt.size, flags := pkt.flags,
     rebased_pts := rebased_pts, rebased_dts := rebased_dts,
     out_index := out.map (fun o => o.1),
     pts := out.map (fun o => av_rescale_q_pass_minmax rebased_pts in_tb o.2),
     dts := out.map (fun o => av_rescale_q_pass_minmax rebased_dts in_tb o.2) }, r2)

/-- The packets written for a sequence of packets passed to `save_record_data` one
after the other, starting from the given first-timestamp variables. -/
def save_record_sequence (is : VideoState) (video_out audio_out : Int × AVRational)
    (in_tb : AVRational) : List AVPacket → RecordFirst → List RecordWrite
  | [], _ => []
  | pkt :: rest, r =>
    (save_record_data is video_out audio_out in_tb pkt r).1 ::
      save_record_sequence is video_out audio_out in_tb rest
        (save_record_data is video_out audio_out in_tb pkt r).2

/-- The first-timestamp variables when recording starts. -/
def record_start : RecordFirst :=
  { first_rec_pts := 0, first_rec_dts := 0, first_audio_rec_pts := 0,
    first_audio_rec_dts := 0 }

/-- A video packet (stream 0) with the given pts and dts in milliseconds. -/
def rec_video_pkt (pts dts : Int) : AVPacket :=
  { sample_pkt with pts := pts, dts := dts, stream_index := 0 }

/-! ## Decoder -/

/-- The binary64 value of `1 / 10.0`, the double nearest to 0.1. -/
def binary64_tenth : Binary64 := Binary64.div (Binary64.of_int 1) (Binary64.of_int 10)

/-- A running binary64 clock of speed 1.0 that follows a packet queue. -/
def rounded_clock : Rounded.Clock :=
  { pts := Binary64.nan, pts_drift := Binary64.nan, last_updated := Binary64.of_int 0,
    speed := Binary64.of_int 1, serial := -1, paused := 0,
    queue_serial := SerialPtr.of_queue }

/-- The clock `rounded_clock` set to pts 0.1 with serial 3 at the time 5.3 s. -/
def rounded_set_clock : Rounded.Clock :=
  Rounded.set_clock_at rounded_clock binary64_tenth 3 (Rounded.time_of 5300000)

/-- The same clock, paused. -/
def rounded_paused_clock : Rounded.Clock := { rounded_set_clock with paused := 1 }

/-! ## Properties of the packet queue -/

theorem bytes_of_append (sz : Nat) (l₁ l₂ : List (AVPacket × Int)) :
    bytes_of sz (l₁ ++ l₂) = bytes_of sz l₁ + bytes_of sz l₂ := by
  simp [bytes_of]

theorem duration_of_append (l₁ l₂ : List (AVPacket × Int)) :
    duration_of (l₁ ++ l₂) = duration_of l₁ + duration_of l₂ := by
  simp [duration_of]

/-- A put either fails, touching neither the list nor the counters nor the serial, or
appends one node stamped with the serial in force after the put. -/
theorem put_private_cases (sz : Nat) (q : PacketQueue) (pkt : PktArg) (m : Bool) :
    let r := packet_queue_put_private sz q pkt m
    (r.1 = -1 ∧ r.2.pkts = q.pkts ∧ r.2.nb_packets = q.nb_packets ∧ r.2.size = q.size ∧
      r.2.duration = q.duration ∧ r.2.serial = q.serial ∧
      r.2.abort_request = q.abort_request) ∨
    (r.1 = 0 ∧ q.abort_request = 0 ∧
      r.2.pkts = q.pkts ++ [{ pkt := pkt.deref, serial := r.2.serial }] ∧
      r.2.nb_packets = q.nb_packets + 1 ∧
      r.2.size = q.size + (pkt.deref.size + (sz : Int)) ∧
      r.2.duration = q.duration + pkt.deref.duration ∧
      r.2.serial = (if pkt = PktArg.flush_marker then q.serial + 1 else q.serial) ∧
      r.2.abort_request = q.abort_request) := by
  intro r
  simp only [r, packet_queue_put_private]
  by_cases ha : q.abort_request = 0
  · cases hr : q.recycle_pkt with
    | nil =>
      cases m <;> simp [ha, hr]
    | cons n rest => simp [ha, hr]
  · simp [ha]

/-- A get returns -1 or 0 or waits, leaving the queue as it is, or returns 1 with the
head node, which it unlinks. -/
theorem get_cases (sz : Nat) (q : PacketQueue) (block : Int) :
    let r := packet_queue_get sz q block
    ((r.1 = GetOutcome.returned (-1) none ∨ r.1 = GetOutcome.returned 0 none ∨
        r.1 = GetOutcome.waiting) ∧ r.2 = q) ∨
    (∃ n rest, q.pkts = n :: rest ∧ q.abort_request = 0 ∧
      r.1 = GetOutcome.returned 1 (some (n.pkt, n.serial)) ∧
      r.2.pkts = rest ∧ r.2.nb_packets = q.nb_packets - 1 ∧
      r.2.size = q.size - (n.pkt.size + (sz : Int)) ∧
      r.2.duration = q.duration - n.pkt.duration ∧ r.2.serial = q.serial ∧
      r.2.abort_request = q.abort_request) := by
  intro r
  simp only [r, packet_queue_get]
  by_cases ha : q.abort_request = 0
  · cases hp : q.pkts with
    | nil => by_cases hb : block = 0 <;> simp [ha, hb]
    | cons n rest =>
      simp [ha]
      exact ⟨n, rest, ⟨rfl, rfl⟩, ⟨rfl, rfl⟩, rfl, rfl, rfl⟩
  · simp [ha]

/-- What a put does to the record. -/
theorem step_put_eq (sz : Nat) (h : History) (pkt : PktArg) (m : Bool) :
    h.step sz (PQOp.put pkt m) =
      { h with
          q := (packet_queue_put_private sz h.q pkt m).2,
          put_ok :=
            if (packet_queue_put_private sz h.q pkt m).1 = 0 then
              h.put_ok ++ [(pkt.deref, (packet_queue_put_private sz h.q pkt m).2.serial)]
            else h.put_ok } := rfl

/-- What a get does to the record: nothing but replace the queue, unless it returns 1
with the head node, which is then recorded. -/
theorem step_get_cases (sz : Nat) (h : History) (block : Int) :
    (h.step sz (PQOp.get block) = h ∧
      ∃ o, packet_queue_get sz h.q block = (o, h.q) ∧
        (o = GetOutcome.returned (-1) none ∨ o = GetOutcome.returned 0 none ∨
          o = GetOutcome.waiting)) ∨
    (∃ n rest, h.q.pkts = n :: rest ∧ h.q.abort_request = 0 ∧
      h.step sz (PQOp.get block) =
        { h with q := (packet_queue_get sz h.q block).2,
                 got := h.got ++ [(n.pkt, n.serial)] } ∧
      (packet_queue_get sz h.q block).2.pkts = rest ∧
      (packet_queue_get sz h.q block).2.nb_packets = h.q.nb_packets - 1 ∧
      (packet_queue_get sz h.q block).2.size = h.q.size - (n.pkt.size + (sz : Int)) ∧
      (packet_queue_get sz h.q block).2.duration = h.q.duration - n.pkt.duration ∧
      (packet_queue_get sz h.q block).2.serial = h.q.serial ∧
      (packet_queue_get sz h.q block).2.abort_request = h.q.abort_request) := by
  rcases get_cases sz h.q block with
    ⟨hr, hq⟩ | ⟨n, rest, hp, ha, hr, hp1, h1, h2, h3, h4, h5⟩
  · left
    generalize hg : packet_queue_get sz h.q block = g at hr hq
    obtain ⟨g1, g2⟩ := g
    simp only at hr hq
    subst hq
    refine ⟨?_, g1, rfl, hr⟩
    simp only [History.step, hg]
    rcases hr with hr | hr | hr <;> subst hr <;> rfl
  · right
    refine ⟨n, rest, hp, ha, ?_, hp1, h1, h2, h3, h4, h5⟩
    simp only [History.step]
    generalize hg : packet_queue_get sz h.q block = g at hr
    obtain ⟨g1, g2⟩ := g
    simp only at hr
    subst hr
    rfl

/-- Every call keeps a consistent record consistent. -/
theorem step_consistent (sz : Nat) (base : List (AVPacket × Int)) (h : History)
    (hc : h.Consistent base) (op : PQOp) : (h.step sz op).Consistent base := by
  unfold History.Consistent at hc ⊢
  cases op with
  | put pkt m =>
    rw [step_put_eq]
    rcases put_private_cases sz h.q pkt m with
      ⟨hr, hp, _⟩ | ⟨hr, _, hp, _⟩
    · have hne : ¬ (packet_queue_put_private sz h.q pkt m).1 = 0 := by rw [hr]; decide
      simp only [hne, if_false, hp, hc]
    · simp only [hr, if_true, hp, List.map_append, List.map_cons, List.map_nil, node_view]
      rw [← List.append_assoc, hc, List.append_assoc]
  | get block =>
    rcases step_get_cases sz h block with ⟨hs, _⟩ | ⟨n, rest, hp, _, hs, hp1, _⟩
    · rw [hs]; exact hc
    · rw [hs]
      simp only [hp1]
      rw [← hc, hp]
      simp [node_view]

/-- Every call keeps the counters in agreement with the nodes. -/
theorem step_accounted (sz : Nat) (h : History) (hc : Accounted sz h.q) (op : PQOp) :
    Accounted sz (h.step sz op).q := by
  obtain ⟨hnb, hsize, hdur⟩ := hc
  cases op with
  | put pkt m =>
    rw [step_put_eq]
    rcases put_private_cases sz h.q pkt m with
      ⟨_, hp, h1, h2, h3, _, _⟩ | ⟨_, _, hp, h1, h2, h3, _, _⟩
    · exact ⟨by simp only [hp, h1, hnb], by simp only [hp, h2, hsize],
        by simp only [hp, h3, hdur]⟩
    · refine ⟨?_, ?_, ?_⟩
      · simp only [hp, h1, hnb]
        simp
      · simp only [hp, h2, hsize, List.map_append, bytes_of_append]
        simp [bytes_of, node_view]
      · simp only [hp, h3, hdur, List.map_append, duration_of_append]
        simp [duration_of, node_view]
  | get block =>
    rcases step_get_cases sz h block with
      ⟨hs, _⟩ | ⟨n, rest, hp, _, hs, hp1, h1, h2, h3, _, _⟩
    · rw [hs]; exact ⟨hnb, hsize, hdur⟩
    · rw [hs]
      refine ⟨?_, ?_, ?_⟩
      · simp only [hp1, h1, hnb, hp]
        simp
      · simp only [hp1, h2, hsize, hp]
        simp [bytes_of, node_view]
      · simp only [hp1, h3, hdur, hp]
        simp [duration_of, node_view]

/-- No call changes `abort_request`. -/
theorem step_abort (sz : Nat) (h : History) (op : PQOp) :
    (h.step sz op).q.abort_request = h.q.abort_request := by
  cases op with
  | put pkt m =>
    rw [step_put_eq]
    rcases put_private_cases sz h.q pkt m with ⟨_, _, _, _, _, _, ha⟩ | ⟨_, _, _, _, _, _, _, ha⟩
    · exact ha
    · exact ha
  | get block =>
    rcases step_get_cases sz h block with ⟨hs, _⟩ | ⟨n, rest, _, _, hs, _, _, _, _, _, ha⟩
    · rw [hs]
    · rw [hs]; exact ha

/-- An invariant of the calls of a sequence is an invariant of the sequence. -/
theorem foldl_invariant (sz : Nat) (P : History → Prop) (ops : List PQOp)
    (hstep : ∀ h op, op ∈ ops → P h → P (h.step sz op)) :
    ∀ h : History, P h → P (ops.foldl (History.step sz) h) := by
  induction ops with
  | nil => intro h hc; exact hc
  | cons op ops ih =>
    intro h hc
    exact ih (fun h1 o ho => hstep h1 o (List.mem_cons_of_mem _ ho)) _
      (hstep h op (List.mem_cons_self _ _) hc)

/-- The record of a run is consistent. -/
theorem run_consistent (sz : Nat) (q : PacketQueue) (ops : List PQOp) :
    (run sz q ops).Consistent (q.pkts.map node_view) := by
  unfold run
  apply foldl_invariant sz (fun h => h.Consistent (q.pkts.map node_view)) ops
    (fun h op _ hc => step_consistent sz _ h hc op)
  simp [History.Consistent]

/-- A run from a queue whose counters agree with its nodes ends in such a queue. -/
theorem run_accounted (sz : Nat) (q : PacketQueue) (hq : Accounted sz q)
    (ops : List PQOp) : Accounted sz (run sz q ops).q := by
  unfold run
  exact foldl_invariant sz (fun h => Accounted sz h.q) ops
    (fun h op _ hc => step_accounted sz h hc op) _ hq

/-- A run leaves `abort_request` as it was. -/
theorem run_abort (sz : Nat) (q : PacketQueue) (ops : List PQOp) :
    (run sz q ops).q.abort_request = q.abort_request := by
  unfold run
  exact foldl_invariant sz (fun h => h.q.abort_request = q.abort_request) ops
    (fun h op _ hc => (step_abort sz h op).trans hc) _ rfl

/-- C1: after any sequence of `packet_queue_put` and `packet_queue_get` calls on a
queue that begins empty, the queued nodes are the accepted packets minus those
already handed out, `nb_packets` is their number, `size` is the sum of
`pkt.size + sizeof(MyAVPacketList)` over them and `duration` the sum of their
`pkt.duration`; all three are 0 when as many packets were got as were put. -/
theorem packet_queue_counters_no_drift (sz : Nat) (q0 : PacketQueue)
    (hempty : q0.pkts = []) (hnb : q0.nb_packets = 0) (hsize : q0.size = 0)
    (hdur : q0.duration = 0) (ops : List PQOp) :
    (run sz q0 ops).q.pkts.map node_view =
        (run sz q0 ops).put_ok.drop (run sz q0 ops).got.length ∧
    (run sz q0 ops).q.nb_packets =
        ((run sz q0 ops).put_ok.length : Int) - ((run sz q0 ops).got.length : Int) ∧
    (run sz q0 ops).got.length ≤ (run sz q0 ops).put_ok.length ∧
    (run sz q0 ops).q.size =
        bytes_of sz ((run sz q0 ops).put_ok.drop (run sz q0 ops).got.length) ∧
    (run sz q0 ops).q.duration =
        duration_of ((run sz q0 ops).put_ok.drop (run sz q0 ops).got.length) ∧
    ((run sz q0 ops).got.length = (run sz q0 ops).put_ok.length →
        (run sz q0 ops).q.nb_packets = 0 ∧ (run sz q0 ops).q.size = 0 ∧
        (run sz q0 ops).q.duration = 0) := by
  have hacc : Accounted sz q0 := by
    simp [Accounted, hempty, hnb, hsize, hdur, bytes_of, duration_of]
  obtain ⟨h1, h2, h3⟩ := run_accounted sz q0 hacc ops
  have hfifo := run_consistent sz q0 ops
  unfold History.Consistent at hfifo
  rw [hempty] at hfifo
  simp only [List.map_nil, List.nil_append] at hfifo
  have hq : (run sz q0 ops).q.pkts.map node_view =
      (run sz q0 ops).put_ok.drop (run sz q0 ops).got.length := by
    rw [← hfifo]; simp
  have hlen : (run sz q0 ops).put_ok.length =
      (run sz q0 ops).got.length + (run sz q0 ops).q.pkts.length := by
    rw [← hfifo]; simp
  refine ⟨hq, ?_, ?_, ?_, ?_, ?_⟩
  · rw [h1, hlen]; push_cast; ring
  · omega
  · rw [h2, hq]
  · rw [h3, hq]
  · intro he
    have hnil : (run sz q0 ops).q.pkts = [] := by
      apply List.eq_nil_of_length_eq_zero; omega
    rw [h1, h2, h3, hnil]
    simp [bytes_of, duration_of]

/-- C1 at a concrete run: two puts, one of a packet with a negative duration, then one
get; one packet of size 2 remains. -/
theorem packet_queue_counters_no_drift_witness :
    (empty_started.pkts = [] ∧ empty_started.nb_packets = 0 ∧ empty_started.size = 0 ∧
      empty_started.duration = 0) ∧
    (run 48 empty_started [PQOp.put (PktArg.packet sample_pkt) true,
        PQOp.put (PktArg.packet sample_pkt2) true, PQOp.get 1]).q.nb_packets = 1 ∧
    (run 48 empty_started [PQOp.put (PktArg.packet sample_pkt) true,
        PQOp.put (PktArg.packet sample_pkt2) true, PQOp.get 1]).q.size = 50 ∧
    (run 48 empty_started [PQOp.put (PktArg.packet sample_pkt) true,
        PQOp.put (PktArg.packet sample_pkt2) true, PQOp.get 1]).q.duration = -5 := by
  have h := packet_queue_counters_no_drift 48 empty_started rfl rfl rfl rfl
    [PQOp.put (PktArg.packet sample_pkt) true,
      PQOp.put (PktArg.packet sample_pkt2) true, PQOp.get 1]
  refine ⟨⟨rfl, rfl, rfl, rfl⟩, ?_, ?_, ?_⟩
  · rw [h.2.1]; decide
  · rw [h.2.2.2.1]; decide
  · rw [h.2.2.2.2.1]; decide

/-- The free list after a flush: the unreferenced nodes, last one first, on top of
the old free list. -/
theorem flush_recycle_eq (q : PacketQueue) :
    (packet_queue_flush q).recycle_pkt =
      (q.pkts.map (fun n => { n with pkt := av_packet_unref n.pkt })).reverse ++
        q.recycle_pkt := by
  simp only [packet_queue_flush]
  generalize q.recycle_pkt = rc
  induction q.pkts generalizing rc with
  | nil => simp
  | cons n l ih => simp [List.foldl_cons, ih]

/-- A put on a non-aborted queue that finds a node (on the free list or from
`av_malloc`) returns 0 and appends the node, stamped with the new serial. -/
theorem put_private_ok (sz : Nat) (q : PacketQueue) (pkt : PktArg) (m : Bool)
    (ha : q.abort_request = 0) (hnode : q.recycle_pkt ≠ [] ∨ m = true) :
    (packet_queue_put_private sz q pkt m).1 = 0 ∧
    (packet_queue_put_private sz q pkt m).2.serial =
      (if pkt = PktArg.flush_marker then q.serial + 1 else q.serial) ∧
    (packet_queue_put_private sz q pkt m).2.pkts =
      q.pkts ++ [{ pkt := pkt.deref,
                   serial := if pkt = PktArg.flush_marker then q.serial + 1 else q.serial }] ∧
    (packet_queue_put_private sz q pkt m).2.abort_request = 0 := by
  simp only [packet_queue_put_private]
  cases hr : q.recycle_pkt with
  | nil =>
    have hm : m = true := by
      rcases hnode with h | h
      · exact absurd hr h
      · exact h
    simp [ha, hm]
  | cons n rest => simp [ha]

/-- C2 as stated fails: flushing a queue whose serial is 1 leaves the serial at 1. -/
theorem packet_queue_flush_serial_counterexample :
    sample_queue.serial = 1 ∧ (packet_queue_flush sample_queue).serial = 1 ∧
    ¬ ((packet_queue_flush sample_queue).serial = sample_queue.serial + 1) := by
  decide

/-- C2, amended: `packet_queue_flush` leaves the serial of every queue unchanged; the
increase by exactly 1 is made by the put of the flush marker that follows the flush,
when the queue is not aborted and a node is available. -/
theorem packet_queue_flush_keeps_serial (sz : Nat) (q : PacketQueue) (m : Bool) :
    (packet_queue_flush q).serial = q.serial ∧
    (q.abort_request = 0 → (q.pkts ≠ [] ∨ q.recycle_pkt ≠ [] ∨ m = true) →
      (packet_queue_put sz (packet_queue_flush q) PktArg.flush_marker m).1 = 0 ∧
      (packet_queue_put sz (packet_queue_flush q) PktArg.flush_marker m).2.1.serial =
        q.serial + 1) := by
  refine ⟨rfl, ?_⟩
  intro ha hnode
  have hnode2 : (packet_queue_flush q).recycle_pkt ≠ [] ∨ m = true := by
    rw [flush_recycle_eq]
    rcases hnode with h | h | h
    · left; simp [h]
    · left; simp [h]
    · right; exact h
  have h := put_private_ok sz (packet_queue_flush q) PktArg.flush_marker m ha hnode2
  exact ⟨h.1, by simpa [packet_queue_put, packet_queue_flush] using h.2.1⟩

/-- C2, amended, at a concrete queue: flush then marker put on the sample queue. -/
theorem packet_queue_flush_keeps_serial_witness :
    (sample_queue.abort_request = 0 ∧ sample_queue.pkts ≠ []) ∧
    (packet_queue_flush sample_queue).serial = 1 ∧
    (packet_queue_put 48 (packet_queue_flush sample_queue) PktArg.flush_marker false).1 = 0 ∧
    (packet_queue_put 48 (packet_queue_flush sample_queue)
      PktArg.flush_marker false).2.1.serial = 1 + 1 :=
  ⟨⟨by decide, by decide⟩,
   (packet_queue_flush_keeps_serial 48 sample_queue false).1,
   (packet_queue_flush_keeps_serial 48 sample_queue false).2 (by decide)
     (Or.inl (by decide))⟩

/-- C3: `packet_queue_flush` leaves the list empty (`first_pkt` and `last_pkt` null,
`nb_packets = size = duration = 0`); in every later sequence of puts and gets the
packets handed out by gets are, in order, an initial segment of the packets accepted
after the flush, so none of the packets queued before the flush is returned; and
when the queue is not aborted and every packet accepted since the flush has been
handed out, a non-blocking get returns 0. -/
theorem packet_queue_flush_discards (sz : Nat) (q : PacketQueue) (ops : List PQOp) :
    ((packet_queue_flush q).pkts = [] ∧ (packet_queue_flush q).first_pkt = none ∧
      (packet_queue_flush q).last_pkt = none ∧ (packet_queue_flush q).nb_packets = 0 ∧
      (packet_queue_flush q).size = 0 ∧ (packet_queue_flush q).duration = 0) ∧
    (run sz (packet_queue_flush q) ops).got ++
        (run sz (packet_queue_flush q) ops).q.pkts.map node_view =
      (run sz (packet_queue_flush q) ops).put_ok ∧
    (run sz (packet_queue_flush q) ops).got <+: (run sz (packet_queue_flush q) ops).put_ok ∧
    (q.abort_request = 0 →
      (run sz (packet_queue_flush q) ops).got.length =
        (run sz (packet_queue_flush q) ops).put_ok.length →
      packet_queue_get sz (run sz (packet_queue_flush q) ops).q 0 =
        (GetOutcome.returned 0 none, (run sz (packet_queue_flush q) ops).q)) := by
  have hfifo := run_consistent sz (packet_queue_flush q) ops
  unfold History.Consistent at hfifo
  have hnil : (packet_queue_flush q).pkts = [] := rfl
  rw [hnil] at hfifo
  simp only [List.map_nil, List.nil_append] at hfifo
  refine ⟨⟨rfl, rfl, rfl, rfl, rfl, rfl⟩, hfifo, ⟨_, hfifo⟩, ?_⟩
  intro ha hlen
  have hab : (run sz (packet_queue_flush q) ops).q.abort_request = 0 := by
    rw [run_abort]; exact ha
  have hempty : (run sz (packet_queue_flush q) ops).q.pkts = [] := by
    have hl := congrArg List.length hfifo
    simp only [List.length_append, List.length_map] at hl
    apply List.eq_nil_of_length_eq_zero
    omega
  simp [packet_queue_get, hab, hempty]

/-- C3 at a concrete run: the sample queue is flushed, one packet is put and two
non-blocking gets follow; only the packet put after the flush comes out. -/
theorem packet_queue_flush_discards_witness :
    sample_queue.abort_request = 0 ∧
    (run 48 (packet_queue_flush sample_queue)
      [PQOp.put (PktArg.packet sample_pkt2) true, PQOp.get 0, PQOp.get 0]).got =
        [(sample_pkt2, 1)] ∧
    packet_queue_get 48 (run 48 (packet_queue_flush sample_queue)
      [PQOp.put (PktArg.packet sample_pkt2) true, PQOp.get 0, PQOp.get 0]).q 0 =
        (GetOutcome.returned 0 none, (run 48 (packet_queue_flush sample_queue)
          [PQOp.put (PktArg.packet sample_pkt2) true, PQOp.get 0, PQOp.get 0]).q) :=
  ⟨by decide, by decide,
   (packet_queue_flush_discards 48 sample_queue
      [PQOp.put (PktArg.packet sample_pkt2) true, PQOp.get 0, PQOp.get 0]).2.2.2
      (by decide) (by decide)⟩

/-- A call other than a put of the flush marker keeps the serial, and every packet it
records as accepted carries that serial. -/
theorem step_keeps_serial (sz : Nat) (s : Int) (h : History) (op : PQOp)
    (hop : ∀ m : Bool, op ≠ PQOp.put PktArg.flush_marker m)
    (hs : h.q.serial = s ∧ ∀ x ∈ h.put_ok, x.2 = s) :
    (h.step sz op).q.serial = s ∧ ∀ x ∈ (h.step sz op).put_ok, x.2 = s := by
  obtain ⟨hser, hall⟩ := hs
  cases op with
  | put pkt m =>
    have hpkt : pkt ≠ PktArg.flush_marker := fun e => hop m (by rw [e])
    rw [step_put_eq]
    rcases put_private_cases sz h.q pkt m with
      ⟨hr, _, _, _, _, h4, _⟩ | ⟨hr, _, _, _, _, _, h4, _⟩
    · have hne : ¬ (packet_queue_put_private sz h.q pkt m).1 = 0 := by rw [hr]; decide
      simp only [hne, if_false]
      exact ⟨h4.trans hser, hall⟩
    · simp only [hpkt, if_false] at h4
      simp only [hr, if_true]
      refine ⟨h4.trans hser, ?_⟩
      intro x hx
      rcases List.mem_append.mp hx with hx | hx
      · exact hall x hx
      · simp only [List.mem_singleton] at hx
        rw [hx]
        exact h4.trans hser
  | get block =>
    rcases step_get_cases sz h block with ⟨hs, _⟩ | ⟨n, rest, _, _, hs, _, _, _, _, h4, _⟩
    · rw [hs]; exact ⟨hser, hall⟩
    · rw [hs]; exact ⟨h4.trans hser, hall⟩

/-- In a run that never puts the flush marker the serial stays put and every accepted
packet is recorded with it. -/
theorem run_keeps_serial (sz : Nat) (q : PacketQueue) (ops : List PQOp)
    (hops : no_flush_put ops) :
    (run sz q ops).q.serial = q.serial ∧ ∀ x ∈ (run sz q ops).put_ok, x.2 = q.serial := by
  unfold run
  apply foldl_invariant sz
    (fun h => h.q.serial = q.serial ∧ ∀ x ∈ h.put_ok, x.2 = q.serial) ops
  · intro h op hmem hs
    exact step_keeps_serial sz q.serial h op (fun m e => hops m (e ▸ hmem)) hs
  · exact ⟨rfl, by simp⟩

/-- C4: on a non-aborted queue (a node being available) the put of the flush marker
returns 0, increases the serial by exactly 1 and appends the marker stamped with the
new serial; the put of any other packet returns 0, keeps the serial and appends the
packet stamped with the current serial; and in every sequence of calls after a marker
put that puts no further marker, the serial stays the one the marker introduced and
every accepted packet is queued behind the marker with exactly that serial. -/
theorem put_stamps_current_serial (sz : Nat) (q : PacketQueue) (p : AVPacket) (m : Bool)
    (ha : q.abort_request = 0) (hnode : q.recycle_pkt ≠ [] ∨ m = true)
    (ops : List PQOp) (hops : no_flush_put ops) :
    ((packet_queue_put sz q PktArg.flush_marker m).1 = 0 ∧
      (packet_queue_put sz q PktArg.flush_marker m).2.1.serial = q.serial + 1 ∧
      (packet_queue_put sz q PktArg.flush_marker m).2.1.pkts =
        q.pkts ++ [{ pkt := flush_pkt, serial := q.serial + 1 }]) ∧
    ((packet_queue_put sz q (PktArg.packet p) m).1 = 0 ∧
      (packet_queue_put sz q (PktArg.packet p) m).2.1.serial = q.serial ∧
      (packet_queue_put sz q (PktArg.packet p) m).2.1.pkts =
        q.pkts ++ [{ pkt := p, serial := q.serial }]) ∧
    ((run sz (packet_queue_put sz q PktArg.flush_marker m).2.1 ops).q.serial =
        q.serial + 1 ∧
      (∀ x ∈ (run sz (packet_queue_put sz q PktArg.flush_marker m).2.1 ops).put_ok,
        x.2 = q.serial + 1) ∧
      (run sz (packet_queue_put sz q PktArg.flush_marker m).2.1 ops).got ++
          (run sz (packet_queue_put sz q PktArg.flush_marker m).2.1 ops).q.pkts.map
            node_view =
        q.pkts.map node_view ++ (flush_pkt, q.serial + 1) ::
          (run sz (packet_queue_put sz q PktArg.flush_marker m).2.1 ops).put_ok) := by
  have hf := put_private_ok sz q PktArg.flush_marker m ha hnode
  have hp := put_private_ok sz q (PktArg.packet p) m ha hnode
  simp only [if_true, PktArg.deref] at hf
  simp only [reduceCtorEq, if_false, PktArg.deref] at hp
  have hq1 : (packet_queue_put sz q PktArg.flush_marker m).2.1 =
      (packet_queue_put_private sz q PktArg.flush_marker m).2 := rfl
  have hq2 : (packet_queue_put sz q (PktArg.packet p) m).2.1 =
      (packet_queue_put_private sz q (PktArg.packet p) m).2 := rfl
  refine ⟨⟨hf.1, by rw [hq1]; exact hf.2.1, by rw [hq1]; exact hf.2.2.1⟩,
    ⟨hp.1, by rw [hq2]; exact hp.2.1, by rw [hq2]; exact hp.2.2.1⟩, ?_⟩
  have hk := run_keeps_serial sz (packet_queue_put sz q PktArg.flush_marker m).2.1 ops hops
  have hc := run_consistent sz (packet_queue_put sz q PktArg.flush_marker m).2.1 ops
  unfold History.Consistent at hc
  rw [hq1] at hk hc ⊢
  rw [hf.2.1] at hk
  refine ⟨hk.1, hk.2, ?_⟩
  rw [hc, hf.2.2.1]
  simp [node_view]

/-- C4 at a concrete run: on the empty started queue (serial 0) the marker is put,
then two packets with a get in between; both packets are recorded with serial 1. -/
theorem put_stamps_current_serial_witness :
    (empty_started.abort_request = 0 ∧
      no_flush_put [PQOp.put (PktArg.packet sample_pkt) true, PQOp.get 0,
        PQOp.put (PktArg.packet sample_pkt2) true]) ∧
    (packet_queue_put 48 empty_started PktArg.flush_marker true).2.1.serial = 0 + 1 ∧
    (packet_queue_put 48 empty_started (PktArg.packet sample_pkt) true).2.1.pkts =
      [] ++ [{ pkt := sample_pkt, serial := 0 }] ∧
    (run 48 (packet_queue_put 48 empty_started PktArg.flush_marker true).2.1
      [PQOp.put (PktArg.packet sample_pkt) true, PQOp.get 0,
        PQOp.put (PktArg.packet sample_pkt2) true]).put_ok =
      [(sample_pkt, 1), (sample_pkt2, 1)] :=
  ⟨⟨by decide, by intro m; cases m <;> decide⟩,
   (put_stamps_current_serial 48 empty_started sample_pkt true (by decide) (Or.inr rfl)
      [PQOp.put (PktArg.packet sample_pkt) true, PQOp.get 0,
        PQOp.put (PktArg.packet sample_pkt2) true]
      (by intro m; cases m <;> decide)).1.2.1,
   (put_stamps_current_serial 48 empty_started sample_pkt true (by decide) (Or.inr rfl)
      [PQOp.put (PktArg.packet sample_pkt) true, PQOp.get 0,
        PQOp.put (PktArg.packet sample_pkt2) true]
      (by intro m; cases m <;> decide)).2.1.2.2,
   by decide⟩

/-- Putting a list of packets on a non-aborted queue appends their stamped nodes. -/
theorem put_list_pkts (sz : Nat) (ps : List PktArg) :
    ∀ q : PacketQueue, q.abort_request = 0 →
      (put_list sz q ps).pkts = q.pkts ++ stamp q.serial ps ∧
      (put_list sz q ps).abort_request = 0 := by
  induction ps with
  | nil => intro q ha; simp [put_list, stamp, ha]
  | cons p ps ih =>
    intro q ha
    obtain ⟨_, h2, h3, h4⟩ := put_private_ok sz q p true ha (Or.inr rfl)
    have hq : put_list sz q (p :: ps) =
        put_list sz (packet_queue_put_private sz q p true).2 ps := rfl
    obtain ⟨i1, i2⟩ := ih (packet_queue_put_private sz q p true).2 h4
    rw [hq, i1, h2, h3]
    exact ⟨by simp [stamp], i2⟩

/-- Stamping keeps the packets and their order. -/
theorem stamp_pkts (ps : List PktArg) :
    ∀ s : Int, (stamp s ps).map (fun n => n.pkt) = ps.map PktArg.deref := by
  induction ps with
  | nil => intro s; rfl
  | cons p ps ih => intro s; simp [stamp, ih]

/-- As many gets as there are nodes at the head of a non-aborted queue hand out these
nodes in order, each returning 1. -/
theorem get_n_pkts (sz : Nat) (block : Int) (l rest : List MyAVPacketList) :
    ∀ q : PacketQueue, q.abort_request = 0 → q.pkts = l ++ rest →
      (get_n sz block l.length q).1 =
        l.map (fun n => GetOutcome.returned 1 (some (n.pkt, n.serial))) ∧
      (get_n sz block l.length q).2.pkts = rest := by
  induction l with
  | nil => intro q _ hp; simpa [get_n] using hp
  | cons n l ih =>
    intro q ha hp
    rcases get_cases sz q block with ⟨hr, hq⟩ | ⟨n1, rest1, hp1, _, hr, hr1, _, _, _, _, hab⟩
    · exfalso
      have hg : (packet_queue_get sz q block).1 =
          GetOutcome.returned 1 (some (n.pkt, n.serial)) := by
        simp [packet_queue_get, ha, hp]
      rw [hg] at hr
      simp at hr
    · rw [hp] at hp1
      simp only [List.cons_append, List.cons.injEq] at hp1
      obtain ⟨hn, hrest⟩ := hp1
      subst hn
      obtain ⟨i1, i2⟩ := ih (packet_queue_get sz q block).2 (hab.trans ha)
        (by rw [hr1, ← hrest])
      simp only [List.length_cons, get_n, List.map_cons]
      exact ⟨by rw [hr, i1], i2⟩

/-- Stamping keeps the number of packets. -/
theorem stamp_length (ps : List PktArg) : ∀ s : Int, (stamp s ps).length = ps.length := by
  induction ps with
  | nil => intro s; rfl
  | cons p ps ih => intro s; simp [stamp, ih]

/-- C5: on a non-aborted empty queue, the packets p1..pn put in that order are queued
as nodes holding exactly these packets (every field, payload bytes included) in that
order, each stamped with the serial in force when it was put; n gets, blocking or
not, then each return 1, the i-th yielding the packet and the serial of the i-th
node, and leave the list empty. -/
theorem packet_queue_fifo (sz : Nat) (q : PacketQueue) (block : Int) (ps : List PktArg)
    (ha : q.abort_request = 0) (hempty : q.pkts = []) :
    (put_list sz q ps).pkts = stamp q.serial ps ∧
    (stamp q.serial ps).map (fun n => n.pkt) = ps.map PktArg.deref ∧
    (get_n sz block ps.length (put_list sz q ps)).1 =
      (stamp q.serial ps).map (fun n => GetOutcome.returned 1 (some (n.pkt, n.serial))) ∧
    (get_n sz block ps.length (put_list sz q ps)).2.pkts = [] := by
  obtain ⟨h1, h2⟩ := put_list_pkts sz ps q ha
  rw [hempty, List.nil_append] at h1
  have hg := get_n_pkts sz block (stamp q.serial ps) [] (put_list sz q ps) h2
    (by rw [h1, List.append_nil])
  rw [stamp_length] at hg
  exact ⟨h1, stamp_pkts ps q.serial, hg.1, hg.2⟩

/-- C5 at a concrete run: the marker and the two sample packets are put on the empty
started queue; three blocking gets return them in order with their serial 1. -/
theorem packet_queue_fifo_witness :
    (empty_started.abort_request = 0 ∧ empty_started.pkts = []) ∧
    (get_n 48 1 3 (put_list 48 empty_started
      [PktArg.flush_marker, PktArg.packet sample_pkt, PktArg.packet sample_pkt2])).1 =
      [GetOutcome.returned 1 (some (flush_pkt, 1)),
       GetOutcome.returned 1 (some (sample_pkt, 1)),
       GetOutcome.returned 1 (some (sample_pkt2, 1))] :=
  ⟨⟨by decide, by decide⟩,
   (packet_queue_fifo 48 empty_started 1
      [PktArg.flush_marker, PktArg.packet sample_pkt, PktArg.packet sample_pkt2]
      (by decide) (by decide)).2.2.1⟩

/-- C6: `packet_queue_get` returns -1 whenever `abort_request` is set, whatever is
queued, and leaves the queue unchanged; on a non-aborted non-empty queue it returns 1
with the head packet and its serial and unlinks exactly the head node, taking its
contribution off the counters; on a non-aborted empty queue with `block = 0` it
returns 0 and leaves the queue unchanged. -/
theorem packet_queue_get_outcomes (sz : Nat) (q : PacketQueue) (block : Int) :
    (q.abort_request ≠ 0 →
      packet_queue_get sz q block = (GetOutcome.returned (-1) none, q)) ∧
    (q.abort_request = 0 → ∀ n rest, q.pkts = n :: rest →
      (packet_queue_get sz q block).1 = GetOutcome.returned 1 (some (n.pkt, n.serial)) ∧
      (packet_queue_get sz q block).2.pkts = rest ∧
      (packet_queue_get sz q block).2.nb_packets = q.nb_packets - 1 ∧
      (packet_queue_get sz q block).2.size = q.size - (n.pkt.size + (sz : Int)) ∧
      (packet_queue_get sz q block).2.duration = q.duration - n.pkt.duration ∧
      (packet_queue_get sz q block).2.serial = q.serial ∧
      (packet_queue_get sz q block).2.abort_request = 0) ∧
    (q.abort_request = 0 → q.pkts = [] → block = 0 →
      packet_queue_get sz q block = (GetOutcome.returned 0 none, q)) := by
  refine ⟨?_, ?_, ?_⟩
  · intro ha
    simp [packet_queue_get, ha]
  · intro ha n rest hp
    simp [packet_queue_get, ha, hp]
  · intro ha hp hb
    simp [packet_queue_get, ha, hp, hb]

/-- C6 at concrete queues: the aborted queue still holding three nodes, the sample
queue, and the empty started queue. -/
theorem packet_queue_get_outcomes_witness :
    (aborted_queue.abort_request ≠ 0 ∧ aborted_queue.pkts.length = 3 ∧
      packet_queue_get 48 aborted_queue 1 = (GetOutcome.returned (-1) none, aborted_queue)) ∧
    (sample_queue.abort_request = 0 ∧
      (packet_queue_get 48 sample_queue 1).1 = GetOutcome.returned 1 (some (flush_pkt, 1)) ∧
      (packet_queue_get 48 sample_queue 1).2.pkts =
        [{ pkt := sample_pkt, serial := 1 }, { pkt := sample_pkt2, serial := 1 }]) ∧
    (empty_started.abort_request = 0 ∧ empty_started.pkts = [] ∧
      packet_queue_get 48 empty_started 0 = (GetOutcome.returned 0 none, empty_started)) :=
  ⟨⟨by decide, by decide,
      (packet_queue_get_outcomes 48 aborted_queue 1).1 (by decide)⟩,
   ⟨by decide,
      ((packet_queue_get_outcomes 48 sample_queue 1).2.1 (by decide)
        { pkt := flush_pkt, serial := 1 }
        [{ pkt := sample_pkt, serial := 1 }, { pkt := sample_pkt2, serial := 1 }]
        (by decide)).1,
      ((packet_queue_get_outcomes 48 sample_queue 1).2.1 (by decide)
        { pkt := flush_pkt, serial := 1 }
        [{ pkt := sample_pkt, serial := 1 }, { pkt := sample_pkt2, serial := 1 }]
        (by decide)).2.1⟩,
   ⟨by decide, by decide,
      (packet_queue_get_outcomes 48 empty_started 0).2.2 (by decide) (by decide) rfl⟩⟩

/-- C7: `packet_queue_put` on a queue whose `abort_request` is set returns -1 and
leaves the whole queue (list, `nb_packets`, `size`, `duration`, `serial`) unchanged,
for the flush marker too; a packet other than the marker is released. -/
theorem packet_queue_put_aborted (sz : Nat) (q : PacketQueue) (pkt : PktArg) (m : Bool)
    (ha : q.abort_request ≠ 0) :
    (packet_queue_put sz q pkt m).1 = -1 ∧
    (packet_queue_put sz q pkt m).1 < 0 ∧
    (packet_queue_put sz q pkt m).2.1 = q ∧
    (packet_queue_put sz q pkt m).2.2 = decide (pkt ≠ PktArg.flush_marker) := by
  have hp : packet_queue_put_private sz q pkt m = (-1, q) := by
    simp only [packet_queue_put_private, ha, ne_eq, not_false_eq_true, if_true]
  refine ⟨?_, ?_, ?_, ?_⟩
  · simp only [packet_queue_put, hp]
  · simp only [packet_queue_put, hp]
    decide
  · simp only [packet_queue_put, hp]
  · simp [packet_queue_put, hp]

/-- C7 at a concrete queue: the flush marker put on the aborted queue. -/
theorem packet_queue_put_aborted_witness :
    aborted_queue.abort_request ≠ 0 ∧
    (packet_queue_put 48 aborted_queue PktArg.flush_marker true).1 = -1 ∧
    (packet_queue_put 48 aborted_queue PktArg.flush_marker true).2.1.serial =
      aborted_queue.serial ∧
    (packet_queue_put 48 aborted_queue PktArg.flush_marker true).2.1 = aborted_queue :=
  ⟨by decide,
   (packet_queue_put_aborted 48 aborted_queue PktArg.flush_marker true (by decide)).1,
   by rw [(packet_queue_put_aborted 48 aborted_queue PktArg.flush_marker true
     (by decide)).2.2.1],
   (packet_queue_put_aborted 48 aborted_queue PktArg.flush_marker true (by decide)).2.2.1⟩

/-! ## Properties of the frame queue -/

/-- Every call made under the usage discipline keeps `FQInv`. -/
theorem fq_step_inv (s s1 : FQState) (op : FQOp) (hstep : fq_step s op = some s1)
    (hinv : FQInv s) : FQInv s1 := by
  obtain ⟨h1, h2, h3⟩ := hinv
  cases op with
  | peek_writable a =>
    simp only [fq_step, frame_queue_peek_writable] at hstep
    by_cases hw : s.f.size ≥ s.f.max_size ∧ a = 0
    · simp only [hw, and_self, if_true, Option.some.injEq] at hstep
      subst hstep
      exact ⟨h1, h2, by simp⟩
    · by_cases ha : a = 0
      · have hlt : s.f.size < s.f.max_size := by
          by_contra hge
          exact hw ⟨not_lt.mp hge, ha⟩
        have hnge : ¬ s.f.size ≥ s.f.max_size := not_le.mpr hlt
        simp only [hnge, ha, false_and, if_false, ne_eq, not_true_eq_false,
          Option.some.injEq] at hstep
        subst hstep
        exact ⟨h1, h2, fun _ => hlt⟩
      · simp only [ha, and_false, if_false, ne_eq, not_false_eq_true, if_true,
          Option.some.injEq] at hstep
        subst hstep
        exact ⟨h1, h2, by simp⟩
  | push =>
    simp only [fq_step] at hstep
    by_cases hh : s.holding = true
    · simp only [hh, if_true, Option.some.injEq] at hstep
      subst hstep
      have hlt := h3 hh
      refine ⟨?_, ?_, by simp⟩
      · simp only [frame_queue_push]; omega
      · simp only [frame_queue_push]; omega
    · simp [hh] at hstep
  | next =>
    simp only [fq_step, frame_queue_nb_remaining] at hstep
    by_cases hr : s.f.size - s.f.rindex_shown > 0
    · simp only [hr, if_true, Option.some.injEq] at hstep
      subst hstep
      by_cases hk : s.f.keep_last ≠ 0 ∧ s.f.rindex_shown = 0
      · have h0 := hk.2
        simp only [frame_queue_next, hk, ne_eq, not_false_eq_true, and_self, if_true]
        exact ⟨h1, by simp only; omega, h3⟩
      · simp only [frame_queue_next, hk, if_false]
        exact ⟨by simp only; omega, by simp only; omega, fun hh => by
          have := h3 hh
          simp only
          omega⟩
    · simp [hr] at hstep

/-- No call changes the capacity. -/
theorem fq_step_max_size (s s1 : FQState) (op : FQOp) (hstep : fq_step s op = some s1) :
    s1.f.max_size = s.f.max_size := by
  cases op with
  | peek_writable a =>
    simp only [fq_step] at hstep
    split at hstep <;> (simp only [Option.some.injEq] at hstep; subst hstep; rfl)
  | push =>
    simp only [fq_step] at hstep
    split at hstep
    · simp only [Option.some.injEq] at hstep; subst hstep; rfl
    · simp at hstep
  | next =>
    simp only [fq_step] at hstep
    split at hstep
    · simp only [Option.some.injEq] at hstep
      subst hstep
      simp only [frame_queue_next]
      split <;> rfl
    · simp at hstep

/-- Every sequence of calls made under the usage discipline keeps `FQInv` and the
capacity. -/
theorem fq_run_inv (ops : List FQOp) :
    ∀ s s1 : FQState, fq_run s ops = some s1 → FQInv s →
      FQInv s1 ∧ s1.f.max_size = s.f.max_size := by
  induction ops with
  | nil =>
    intro s s1 hrun hinv
    simp only [fq_run, Option.some.injEq] at hrun
    subst hrun
    exact ⟨hinv, rfl⟩
  | cons op ops ih =>
    intro s s1 hrun hinv
    simp only [fq_run] at hrun
    cases hs : fq_step s op with
    | none => simp [hs] at hrun
    | some s2 =>
      simp only [hs] at hrun
      obtain ⟨i1, i2⟩ := ih s2 s1 hrun (fq_step_inv s s2 op hs hinv)
      exact ⟨i1, i2.trans (fq_step_max_size s s2 op hs)⟩

/-- C8: starting from `frame_queue_init` with a non-negative capacity, after every
sequence of calls in which `frame_queue_push` follows a `frame_queue_peek_writable`
that returned a slot and `frame_queue_next` is called with
`frame_queue_nb_remaining > 0`, `size` is at most `max_size` (which is still the
capacity set by init) and at least `rindex_shown`; and on every frame queue
`frame_queue_peek_writable` returns the slot at `windex` without waiting exactly when
`size < max_size` and the packet queue is not aborted, and returns null when it is
aborted. -/
theorem frame_queue_size_bounded (FRAME_QUEUE_SIZE max_size keep_last : Int)
    (hcap : 0 ≤ max_size) (hfqs : 0 ≤ FRAME_QUEUE_SIZE) (ops : List FQOp) (s : FQState)
    (hrun : fq_run { f := frame_queue_init FRAME_QUEUE_SIZE max_size keep_last,
                     holding := false } ops = some s)
    (f : FrameQueue) (abort_request : Int) :
    (s.f.size ≤ s.f.max_size ∧ s.f.max_size = FFMIN max_size FRAME_QUEUE_SIZE ∧
      s.f.rindex_shown ≤ s.f.size) ∧
    (frame_queue_peek_writable f abort_request = PeekOutcome.slot f.windex ↔
      f.size < f.max_size ∧ abort_request = 0) ∧
    ((∃ i, frame_queue_peek_writable f abort_request = PeekOutcome.slot i) ↔
      f.size < f.max_size ∧ abort_request = 0) ∧
    (abort_request ≠ 0 → frame_queue_peek_writable f abort_request = PeekOutcome.null) := by
  have hinit : FQInv { f := frame_queue_init FRAME_QUEUE_SIZE max_size keep_last,
                       holding := false } := by
    refine ⟨?_, le_refl _, by simp⟩
    simp only [frame_queue_init, FFMIN]
    split <;> omega
  obtain ⟨⟨h1, h2, _⟩, hm⟩ := fq_run_inv ops _ s hrun hinit
  refine ⟨⟨h1, hm, h2⟩, ?_, ?_, ?_⟩
  · simp only [frame_queue_peek_writable]
    by_cases ha : abort_request = 0
    · by_cases hlt : f.size < f.max_size
      · have : ¬ f.size ≥ f.max_size := not_le.mpr hlt
        simp [ha, hlt, this]
      · have : f.size ≥ f.max_size := not_lt.mp hlt
        simp [ha, hlt, this]
    · simp [ha]
  · simp only [frame_queue_peek_writable]
    by_cases ha : abort_request = 0
    · by_cases hlt : f.size < f.max_size
      · have : ¬ f.size ≥ f.max_size := not_le.mpr hlt
        simp [ha, hlt, this]
      · have : f.size ≥ f.max_size := not_lt.mp hlt
        simp [ha, hlt, this]
    · simp [ha]
  · intro ha
    simp [frame_queue_peek_writable, ha]

/-- C8 at a concrete run on the sample picture queue: three frames are pushed, the
producer then has to wait; after two `frame_queue_next` it gets a slot again. -/
theorem frame_queue_size_bounded_witness :
    fq_run { f := frame_queue_init 16 3 1, holding := false }
      [FQOp.peek_writable 0, FQOp.push, FQOp.peek_writable 0, FQOp.push,
       FQOp.peek_writable 0, FQOp.push, FQOp.peek_writable 0, FQOp.next, FQOp.next,
       FQOp.peek_writable 0, FQOp.push] = some { f := fq_full, holding := false } ∧
    (fq_full.size ≤ fq_full.max_size ∧ fq_full.max_size = FFMIN 3 16 ∧
      fq_full.rindex_shown ≤ fq_full.size) ∧
    frame_queue_peek_writable fq_full 1 = PeekOutcome.null :=
  ⟨by decide,
   (frame_queue_size_bounded 16 3 1 (by decide) (by decide)
      [FQOp.peek_writable 0, FQOp.push, FQOp.peek_writable 0, FQOp.push,
       FQOp.peek_writable 0, FQOp.push, FQOp.peek_writable 0, FQOp.next, FQOp.next,
       FQOp.peek_writable 0, FQOp.push]
      { f := fq_full, holding := false } (by decide) fq_full 1).1,
   (frame_queue_size_bounded 16 3 1 (by decide) (by decide) [] _ rfl fq_full 1).2.2.2
      (by decide)⟩

/-- C9: with `keep_last` set and `rindex_shown = 0`, `frame_queue_next` only sets
`rindex_shown` to 1; in every other case it decrements `size` by exactly 1, leaves
`rindex_shown`, `windex`, `max_size` and `keep_last` unchanged and, the read cursor
being within `0 .. max_size - 1`, advances `rindex` by one modulo `max_size`.  In both
cases `frame_queue_nb_remaining` decreases by exactly 1. -/
theorem frame_queue_next_effect (f : FrameQueue) :
    (f.keep_last ≠ 0 ∧ f.rindex_shown = 0 →
      frame_queue_next f = { f with rindex_shown := 1 }) ∧
    (¬ (f.keep_last ≠ 0 ∧ f.rindex_shown = 0) →
      (frame_queue_next f).size = f.size - 1 ∧
      (frame_queue_next f).rindex_shown = f.rindex_shown ∧
      (frame_queue_next f).windex = f.windex ∧
      (frame_queue_next f).max_size = f.max_size ∧
      (frame_queue_next f).keep_last = f.keep_last ∧
      (0 ≤ f.rindex → f.rindex < f.max_size →
        (frame_queue_next f).rindex = (f.rindex + 1) % f.max_size)) ∧
    frame_queue_nb_remaining (frame_queue_next f) = frame_queue_nb_remaining f - 1 := by
  refine ⟨?_, ?_, ?_⟩
  · intro hk
    simp only [frame_queue_next, hk, ne_eq, not_false_eq_true, and_self, if_true]
  · intro hk
    have hn : frame_queue_next f =
        { f with rindex := if f.rindex + 1 = f.max_size then 0 else f.rindex + 1,
                 size := f.size - 1 } := by
      simp only [frame_queue_next, hk, if_false]
    rw [hn]
    refine ⟨rfl, rfl, rfl, rfl, rfl, ?_⟩
    intro h0 hlt
    by_cases he : f.rindex + 1 = f.max_size
    · simp only [he, if_true, Int.emod_self]
    · simp only [he, if_false]
      rw [Int.emod_eq_of_lt (by omega) (by omega)]
  · by_cases hk : f.keep_last ≠ 0 ∧ f.rindex_shown = 0
    · simp only [frame_queue_next, hk, ne_eq, not_false_eq_true, and_self, if_true,
        frame_queue_nb_remaining]
      omega
    · simp only [frame_queue_next, hk, if_false, frame_queue_nb_remaining]
      omega

/-- C9 at concrete queues: the first advance of a `keep_last` queue holding 2 frames,
and an advance at the last slot, which wraps `rindex` to 0. -/
theorem frame_queue_next_effect_witness :
    frame_queue_next fq_unshown = { fq_unshown with rindex_shown := 1 } ∧
    (frame_queue_next fq_at_end).rindex = (fq_at_end.rindex + 1) % fq_at_end.max_size ∧
    (frame_queue_next fq_at_end).rindex = 0 ∧
    frame_queue_nb_remaining (frame_queue_next fq_at_end) = 0 :=
  ⟨(frame_queue_next_effect fq_unshown).1 ⟨by decide, rfl⟩,
   ((frame_queue_next_effect fq_at_end).2.1 (by decide)).2.2.2.2.2 (by decide) (by decide),
   by decide, by decide⟩

/-! ## Properties of the clocks -/

/-- The difference of a finite number and itself is zero. -/
theorem Binary64.sub_self_fin (m e : Int) :
    Binary64.sub (Binary64.fin m e) (Binary64.fin m e) = Binary64.fin 0 (-1074) := by
  simp [Binary64.sub, Binary64.neg, Binary64.add, Binary64.of_scaled, Binary64.round,
    round_magnitude]

/-- The product of zero and a finite number is zero. -/
theorem Binary64.zero_mul_fin (e m2 e2 : Int) :
    Binary64.mul (Binary64.fin 0 e) (Binary64.fin m2 e2) = Binary64.fin 0 (-1074) := by
  simp [Binary64.mul, Binary64.of_scaled, Binary64.round, round_magnitude]

/-- C11 as stated fails in double precision: the running clock of speed 1.0 written by
`set_clock_at` with pts 0.1 (the double nearest to it, 7205759403792794 * 2^-56) at the
time 5.3 s shows at that same time the value 7205759403792768 * 2^-56, which is
0.09999999999999964 and not the pts, although `pts + (now - t) * speed` is the pts: the
stored `pts_drift = pts - t` is rounded, and adding `t` back does not restore the
pts. -/
theorem get_clock_rounding_counterexample :
    rounded_set_clock.deref_queue_serial 3 = rounded_set_clock.serial ∧
    rounded_set_clock.paused = 0 ∧
    rounded_set_clock.pts = Binary64.fin 7205759403792794 (-56) ∧
    rounded_set_clock.last_updated = Rounded.time_of 5300000 ∧
    Rounded.get_clock rounded_set_clock 3 5300000 = Binary64.fin 7205759403792768 (-56) ∧
    Binary64.add rounded_set_clock.pts
      (Binary64.mul (Binary64.sub (Rounded.time_of 5300000) rounded_set_clock.last_updated)
        rounded_set_clock.speed) = Binary64.fin 7205759403792794 (-56) ∧
    Rounded.get_clock rounded_set_clock 3 5300000 ≠ rounded_set_clock.pts := by
  decide!

/-- C11, amended: for a clock whose serial equals its queue serial: when paused,
`get_clock` returns the stored pts at every wall time; otherwise at wall time `now` it
returns the binary64 value of `pts_drift + now - (now - last_updated) * (1.0 - speed)`,
every operation rounded; for a clock last written by `set_clock_at(pts, serial, t)`
that is `((pts - t) + now) - (now - t) * (1.0 - speed)`, and at `now = t` (a finite
time, `1.0 - speed` finite) the product vanishes and the value is `((pts - t) + t) - 0`,
the rounded sum of the rounded difference. -/
theorem get_clock_rounded_value (c : Rounded.Clock) (pktq_serial now_us : Int) :
    (c.deref_queue_serial pktq_serial = c.serial → c.paused ≠ 0 →
      ∀ other_us : Int, Rounded.get_clock c pktq_serial other_us = c.pts) ∧
    (c.deref_queue_serial pktq_serial = c.serial → c.paused = 0 →
      Rounded.get_clock c pktq_serial now_us =
        Binary64.sub (Binary64.add c.pts_drift (Rounded.time_of now_us))
          (Binary64.mul (Binary64.sub (Rounded.time_of now_us) c.last_updated)
            (Binary64.sub (Binary64.of_int 1) c.speed))) ∧
    (∀ (pts t : Binary64) (serial : Int),
      (Rounded.set_clock_at c pts serial t).deref_queue_serial pktq_serial = serial →
      c.paused = 0 →
      Rounded.get_clock (Rounded.set_clock_at c pts serial t) pktq_serial now_us =
        Binary64.sub (Binary64.add (Binary64.sub pts t) (Rounded.time_of now_us))
          (Binary64.mul (Binary64.sub (Rounded.time_of now_us) t)
            (Binary64.sub (Binary64.of_int 1) c.speed))) ∧
    (∀ (pts : Binary64) (serial : Int),
      (Rounded.set_clock_at c pts serial (Rounded.time_of now_us)).deref_queue_serial
        pktq_serial = serial →
      c.paused = 0 → (Rounded.time_of now_us).is_finite = true →
      (Binary64.sub (Binary64.of_int 1) c.speed).is_finite = true →
      Rounded.get_clock (Rounded.set_clock_at c pts serial (Rounded.time_of now_us))
          pktq_serial now_us =
        Binary64.sub
          (Binary64.add (Binary64.sub pts (Rounded.time_of now_us)) (Rounded.time_of now_us))
          (Binary64.fin 0 (-1074))) := by
  have hset : ∀ (pts t : Binary64) (serial : Int),
      (Rounded.set_clock_at c pts serial t).deref_queue_serial pktq_serial = serial →
      c.paused = 0 →
      Rounded.get_clock (Rounded.set_clock_at c pts serial t) pktq_serial now_us =
        Binary64.sub (Binary64.add (Binary64.sub pts t) (Rounded.time_of now_us))
          (Binary64.mul (Binary64.sub (Rounded.time_of now_us) t)
            (Binary64.sub (Binary64.of_int 1) c.speed)) := by
    intro pts t serial hs hp
    have hs2 : (Rounded.set_clock_at c pts serial t).serial = serial := rfl
    simp only [Rounded.get_clock, hs, hs2, ne_eq, not_true_eq_false, if_false]
    simp [Rounded.set_clock_at, hp]
  refine ⟨?_, ?_, hset, ?_⟩
  · intro hs hp other_us
    simp [Rounded.get_clock, hs, hp]
  · intro hs hp
    simp [Rounded.get_clock, hs, hp]
  · intro pts serial hs hp ht hsp
    rw [hset pts (Rounded.time_of now_us) serial hs hp]
    cases hT : Rounded.time_of now_us with
    | nan => rw [hT] at ht; simp [Binary64.is_finite] at ht
    | inf a => rw [hT] at ht; simp [Binary64.is_finite] at ht
    | fin tm te =>
      cases hS : Binary64.sub (Binary64.of_int 1) c.speed with
      | nan => rw [hS] at hsp; simp [Binary64.is_finite] at hsp
      | inf a => rw [hS] at hsp; simp [Binary64.is_finite] at hsp
      | fin sm se => rw [Binary64.sub_self_fin, Binary64.zero_mul_fin]

/-- C11, amended, at concrete clocks: the paused clock with pts 0.1 shows 0.1 at wall
time 8 s, and the clock of speed 1.0 set to pts 0.1 at 5.3 s shows
`((0.1 - 5.3) + 5.3) - 0` at 5.3 s. -/
theorem get_clock_rounded_value_witness :
    (rounded_paused_clock.deref_queue_serial 3 = rounded_paused_clock.serial ∧
      rounded_paused_clock.paused ≠ 0 ∧
      Rounded.get_clock rounded_paused_clock 3 8000000 = rounded_paused_clock.pts) ∧
    Rounded.get_clock
        (Rounded.set_clock_at rounded_clock binary64_tenth 3 (Rounded.time_of 5300000)) 3
        5300000 =
      Binary64.sub
        (Binary64.add (Binary64.sub binary64_tenth (Rounded.time_of 5300000))
          (Rounded.time_of 5300000))
        (Binary64.fin 0 (-1074)) :=
  ⟨⟨rfl, by decide, (get_clock_rounded_value rounded_paused_clock 3 0).1 rfl (by decide)
      8000000⟩,
   (get_clock_rounded_value rounded_clock 3 5300000).2.2.2 binary64_tenth 3 rfl rfl
     (by decide!) (by decide!)⟩

/-! ## Properties of the synchronisation code -/

/-- C12: `get_master_sync_type` returns audio-master when video-master is configured
and there is no video stream, external-clock when audio-master is configured and
there is no audio stream, the configured mode when its stream is present, and
external-clock for every other configured mode. -/
theorem get_master_sync_type_cases (k : SyncEnum) (is : VideoState)
    (hav : k.AV_SYNC_AUDIO_MASTER ≠ k.AV_SYNC_VIDEO_MASTER) :
    (is.av_sync_type = k.AV_SYNC_VIDEO_MASTER → is.video_st = none →
      get_master_sync_type k is = k.AV_SYNC_AUDIO_MASTER) ∧
    (is.av_sync_type = k.AV_SYNC_AUDIO_MASTER → is.audio_st = none →
      get_master_sync_type k is = k.AV_SYNC_EXTERNAL_CLOCK) ∧
    (is.av_sync_type = k.AV_SYNC_VIDEO_MASTER → is.video_st ≠ none →
      get_master_sync_type k is = is.av_sync_type) ∧
    (is.av_sync_type = k.AV_SYNC_AUDIO_MASTER → is.audio_st ≠ none →
      get_master_sync_type k is = is.av_sync_type) ∧
    (is.av_sync_type ≠ k.AV_SYNC_VIDEO_MASTER → is.av_sync_type ≠ k.AV_SYNC_AUDIO_MASTER →
      get_master_sync_type k is = k.AV_SYNC_EXTERNAL_CLOCK) := by
  refine ⟨?_, ?_, ?_, ?_, ?_⟩
  · intro hm hv
    simp [get_master_sync_type, hm, hv]
  · intro hm ha
    simp [get_master_sync_type, hm, ha, hav]
  · intro hm hv
    have : is.video_st.isSome = true := Option.isSome_iff_ne_none.mpr hv
    simp [get_master_sync_type, hm, this]
  · intro hm ha
    have : is.audio_st.isSome = true := Option.isSome_iff_ne_none.mpr ha
    simp [get_master_sync_type, hm, this, hav]
  · intro hv ha
    simp [get_master_sync_type, hv, ha]

/-- C12 at concrete sessions: audio-master with its stream present stays
audio-master; video-master without a video stream gives audio-master. -/
theorem get_master_sync_type_cases_witness :
    (sample_sync.AV_SYNC_AUDIO_MASTER ≠ sample_sync.AV_SYNC_VIDEO_MASTER) ∧
    get_master_sync_type sample_sync av_is = 0 ∧
    get_master_sync_type sample_sync no_streams_is = 0 :=
  ⟨by decide,
   (get_master_sync_type_cases sample_sync av_is (by decide)).2.2.2.1 rfl (by decide),
   (get_master_sync_type_cases sample_sync no_streams_is (by decide)).1 rfl rfl⟩

/-- C13 as stated fails: with video-master configured and neither a video nor an
audio stream, `get_master_sync_type` returns audio-master (0), not external-clock
(2). -/
theorem video_master_without_streams_counterexample :
    no_streams_is.av_sync_type = sample_sync.AV_SYNC_VIDEO_MASTER ∧
    no_streams_is.video_st = none ∧ no_streams_is.audio_st = none ∧
    get_master_sync_type sample_sync no_streams_is = sample_sync.AV_SYNC_AUDIO_MASTER ∧
    get_master_sync_type sample_sync no_streams_is ≠ sample_sync.AV_SYNC_EXTERNAL_CLOCK := by
  decide

/-- C13, amended: with video-master configured and no video stream present,
`get_master_sync_type` returns audio-master whether or not an audio stream is
present, so it never returns external-clock there, and `get_master_clock` reads the
audio clock. -/
theorem video_master_without_video (k : SyncEnum) (is : VideoState) (now_us : Int)
    (hm : is.av_sync_type = k.AV_SYNC_VIDEO_MASTER) (hv : is.video_st = none) :
    get_master_sync_type k is = k.AV_SYNC_AUDIO_MASTER ∧
    (k.AV_SYNC_AUDIO_MASTER ≠ k.AV_SYNC_EXTERNAL_CLOCK →
      get_master_sync_type k is ≠ k.AV_SYNC_EXTERNAL_CLOCK) ∧
    (k.AV_SYNC_AUDIO_MASTER ≠ k.AV_SYNC_VIDEO_MASTER →
      get_master_clock k is now_us = get_clock is.audclk is.audioq.serial now_us) := by
  have h : get_master_sync_type k is = k.AV_SYNC_AUDIO_MASTER := by
    simp [get_master_sync_type, hm, hv]
  refine ⟨h, ?_, ?_⟩
  · intro hae
    rw [h]
    exact hae
  · intro hav
    simp [get_master_clock, h, hav]

/-- C13, amended, at concrete sessions: no video stream, with and without an audio
stream. -/
theorem video_master_without_video_witness :
    get_master_sync_type sample_sync { av_is with av_sync_type := 1, video_st := none } =
      sample_sync.AV_SYNC_AUDIO_MASTER ∧
    get_master_sync_type sample_sync no_streams_is = sample_sync.AV_SYNC_AUDIO_MASTER ∧
    get_master_sync_type sample_sync no_streams_is ≠ sample_sync.AV_SYNC_EXTERNAL_CLOCK :=
  ⟨(video_master_without_video sample_sync { av_is with av_sync_type := 1, video_st := none }
      0 rfl rfl).1,
   (video_master_without_video sample_sync no_streams_is 0 rfl rfl).1,
   (video_master_without_video sample_sync no_streams_is 0 rfl rfl).2.1 (by decide)⟩

/-- The loop of `drop_queue_until_pts` leaves the chain from the first node on which it
stops, and counts the nodes before it. -/
theorem drop_loop_pkts (sz : Nat) (T : Int) (l : List MyAVPacketList) :
    ∀ (q : PacketQueue) (del : Int),
      (drop_loop sz T l q del).1.pkts = l.dropWhile (fun n => !stops_drop T n) ∧
      (drop_loop sz T l q del).2 =
        del + ((l.takeWhile (fun n => !stops_drop T n)).length : Int) := by
  induction l with
  | nil => intro q del; simp [drop_loop]
  | cons n l ih =>
    intro q del
    by_cases hstop : stops_drop T n = true
    · simp [drop_loop, hstop]
    · obtain ⟨i1, i2⟩ := ih
        { q with
            pkts := l,
            nb_packets := q.nb_packets - 1,
            size := q.size - (n.pkt.size + (sz : Int)),
            duration := if n.pkt.duration > 0 then q.duration - n.pkt.duration else q.duration,
            recycle_pkt := { n with pkt := av_free_packet n.pkt } :: q.recycle_pkt }
        (del + 1)
      simp only [drop_loop, hstop, Bool.false_eq_true, if_false]
      rw [i1, i2]
      simp [List.dropWhile_cons, List.takeWhile_cons, hstop]
      ring

/-- The first element left by `dropWhile` fails the test. -/
theorem dropWhile_head_false {α : Type} (p : α → Bool) (l : List α) (a : α) (rest : List α)
    (h : l.dropWhile p = a :: rest) : p a = false := by
  induction l with
  | nil => simp at h
  | cons b l ih =>
    by_cases hb : p b = true
    · rw [List.dropWhile_cons_of_pos hb] at h
      exact ih h
    · rw [List.dropWhile_cons_of_neg hb] at h
      injection h with h1 _
      rw [← h1]
      simpa using hb

/-- C17: after `drop_queue_until_pts(q, T)` the queue is empty or its head packet has
the key-frame flag and `pts >= T`; the original chain is the removed packets followed
by the remaining ones in their original order; every removed packet lacks the
key-frame flag or has `pts < T`, so the removed packets are the longest such run at
the head of the queue, and `del_nb_packets` is their number. -/
theorem drop_queue_until_pts_stops_at_key (sz : Nat) (q : PacketQueue) (T : Int) :
    ((drop_queue_until_pts sz q T).1.pkts = [] ∨
      ∃ n rest, (drop_queue_until_pts sz q T).1.pkts = n :: rest ∧
        Int.land n.pkt.flags AV_PKT_FLAG_KEY ≠ 0 ∧ n.pkt.pts ≥ T) ∧
    (∃ removed : List MyAVPacketList,
      q.pkts = removed ++ (drop_queue_until_pts sz q T).1.pkts ∧
      (∀ n ∈ removed, Int.land n.pkt.flags AV_PKT_FLAG_KEY = 0 ∨ n.pkt.pts < T) ∧
      (drop_queue_until_pts sz q T).2 = (removed.length : Int)) ∧
    (drop_queue_until_pts sz q T).1.pkts =
      q.pkts.dropWhile
        (fun n => !decide (Int.land n.pkt.flags AV_PKT_FLAG_KEY ≠ 0 ∧ n.pkt.pts ≥ T)) := by
  obtain ⟨h1, h2⟩ := drop_loop_pkts sz T q.pkts q 0
  have hrem : (drop_queue_until_pts sz q T).1.pkts =
      q.pkts.dropWhile (fun n => !stops_drop T n) := h1
  refine ⟨?_, ?_, hrem⟩
  · rw [hrem]
    cases hd : q.pkts.dropWhile (fun n => !stops_drop T n) with
    | nil => left; rfl
    | cons n rest =>
      right
      have hn := dropWhile_head_false (fun n => !stops_drop T n) q.pkts n rest hd
      have hn2 : Int.land n.pkt.flags AV_PKT_FLAG_KEY ≠ 0 ∧ n.pkt.pts ≥ T := by
        simpa [stops_drop] using hn
      exact ⟨n, rest, rfl, hn2.1, hn2.2⟩
  · refine ⟨q.pkts.takeWhile (fun n => !stops_drop T n), ?_, ?_, ?_⟩
    · rw [hrem, List.takeWhile_append_dropWhile]
    · intro n hn
      have hp := List.mem_takeWhile_imp hn
      simp only [stops_drop, Bool.not_eq_true', decide_eq_false_iff_not, not_and_or,
        not_not, not_le] at hp
      rcases hp with hp | hp
      · left; exact hp
      · right; exact lt_of_not_ge (by simpa using hp)
    · have : (drop_queue_until_pts sz q T).2 =
          0 + ((q.pkts.takeWhile (fun n => !stops_drop T n)).length : Int) := h2
      rw [this, zero_add]

/-- With the stream pointer set whenever the stream index is, the C function
`stream_has_enough_packets` returns, and returns true exactly when the stream has
enough packets. -/
theorem stream_has_enough_packets_spec (st : Option AVStream) (stream_id : Int)
    (queue : PacketQueue) (min_frames : Int) (hst : stream_id ≥ 0 → st ≠ none) :
    ∃ b : Bool, stream_has_enough_packets st stream_id queue min_frames = some b ∧
      (b = true ↔ has_enough_packets st stream_id queue min_frames) := by
  unfold stream_has_enough_packets has_enough_packets
  by_cases hid : stream_id < 0
  · exact ⟨true, by simp [hid], by simp [hid]⟩
  · by_cases hab : queue.abort_request = 0
    · cases hs : st with
      | none => exact absurd hs (hst (not_lt.mp hid))
      | some s =>
        refine ⟨decide (Int.land s.disposition AV_DISPOSITION_ATTACHED_PIC ≠ 0) ||
          decide (queue.nb_packets > min_frames), ?_, ?_⟩
        · simp only [hid, hab, ne_eq, not_true_eq_false, if_false]
        · simp [hid, hab]
    · exact ⟨true, by simp [hid, hab], by simp [hab]⟩

/-- C17 at a concrete queue: dropping up to pts 130 removes the non-key frame at 100,
the key frame at 120 (too early) and the non-key frame at 140, and stops at the key
frame at 160. -/
theorem drop_queue_until_pts_stops_at_key_witness :
    (drop_queue_until_pts 48 gop_queue 130).1.pkts =
      [{ pkt := video_pkt 160 1, serial := 0 }] ∧
    (drop_queue_until_pts 48 gop_queue 130).2 = 3 ∧
    ((drop_queue_until_pts 48 gop_queue 130).1.pkts = [] ∨
      ∃ n rest, (drop_queue_until_pts 48 gop_queue 130).1.pkts = n :: rest ∧
        Int.land n.pkt.flags AV_PKT_FLAG_KEY ≠ 0 ∧ n.pkt.pts ≥ 130) :=
  ⟨by decide, by decide, (drop_queue_until_pts_stops_at_key 48 gop_queue 130).1⟩

/-- C18: with `infinite_buffer < 1` and no seek pending (and each stream pointer set
whenever its stream index is), the read loop takes its 10 ms wait exactly when
`audioq.size + videoq.size + subtitleq.size > max_buffer_size` or all three of the
audio, video and subtitle streams have enough packets; and
`stream_has_enough_packets` holds exactly when the stream index is below 0, or the
queue is aborted, or the stream is an attached picture, or the queue holds strictly
more than `MIN_FRAMES` packets. -/
theorem read_thread_pauses_iff (infinite_buffer max_buffer_size MIN_FRAMES : Int)
    (is : VideoState) (hinf : infinite_buffer < 1) (hseek : is.seek_req = 0)
    (ha : is.audio_stream ≥ 0 → is.audio_st ≠ none)
    (hv : is.video_stream ≥ 0 → is.video_st ≠ none)
    (hs : is.subtitle_stream ≥ 0 → is.subtitle_st ≠ none) :
    (∃ b : Bool,
      read_thread_queues_full infinite_buffer max_buffer_size MIN_FRAMES is = some b) ∧
    (read_thread_queues_full infinite_buffer max_buffer_size MIN_FRAMES is = some true ↔
      is.audioq.size + is.videoq.size + is.subtitleq.size > max_buffer_size ∨
      (has_enough_packets is.audio_st is.audio_stream is.audioq MIN_FRAMES ∧
        has_enough_packets is.video_st is.video_stream is.videoq MIN_FRAMES ∧
        has_enough_packets is.subtitle_st is.subtitle_stream is.subtitleq MIN_FRAMES)) ∧
    (stream_has_enough_packets is.audio_st is.audio_stream is.audioq MIN_FRAMES = some true ↔
      is.audio_stream < 0 ∨ is.audioq.abort_request ≠ 0 ∨
      (∃ s, is.audio_st = some s ∧
        Int.land s.disposition AV_DISPOSITION_ATTACHED_PIC ≠ 0) ∨
      is.audioq.nb_packets > MIN_FRAMES) := by
  obtain ⟨ba, hba, hba2⟩ :=
    stream_has_enough_packets_spec is.audio_st is.audio_stream is.audioq MIN_FRAMES ha
  obtain ⟨bv, hbv, hbv2⟩ :=
    stream_has_enough_packets_spec is.video_st is.video_stream is.videoq MIN_FRAMES hv
  obtain ⟨bs, hbs, hbs2⟩ :=
    stream_has_enough_packets_spec is.subtitle_st is.subtitle_stream is.subtitleq
      MIN_FRAMES hs
  have hfull : read_thread_queues_full infinite_buffer max_buffer_size MIN_FRAMES is =
      if is.audioq.size + is.videoq.size + is.subtitleq.size > max_buffer_size then some true
      else some (ba && bv && bs) := by
    simp only [read_thread_queues_full, hinf, hseek, and_self, if_true, hba, hbv, hbs]
    split
    · rfl
    · cases ba <;> cases bv <;> cases bs <;> rfl
  refine ⟨?_, ?_, ?_⟩
  · rw [hfull]
    split
    · exact ⟨true, rfl⟩
    · exact ⟨_, rfl⟩
  · rw [hfull, ← hba2, ← hbv2, ← hbs2]
    by_cases hsz : is.audioq.size + is.videoq.size + is.subtitleq.size > max_buffer_size
    · simp [hsz]
    · simp [hsz, Bool.and_assoc]
  · rw [hba]
    simp only [Option.some.injEq]
    exact hba2

/-- C18 at concrete sessions: with a ceiling of 15 MB and `MIN_FRAMES = 2` the sample
session, whose video queue holds 3 packets but whose audio queue is empty, keeps
reading; once the audio queue is aborted all three streams have enough packets and
the loop waits. -/
theorem read_thread_pauses_iff_witness :
    read_thread_queues_full 0 15728640 2 playing_is = some false ∧
    read_thread_queues_full 0 15728640 2
      { playing_is with audioq := aborted_queue } = some true ∧
    (read_thread_queues_full 0 15728640 2
        { playing_is with audioq := aborted_queue } = some true ↔
      aborted_queue.size + playing_is.videoq.size + playing_is.subtitleq.size > 15728640 ∨
      (has_enough_packets playing_is.audio_st playing_is.audio_stream aborted_queue 2 ∧
        has_enough_packets playing_is.video_st playing_is.video_stream playing_is.videoq 2 ∧
        has_enough_packets playing_is.subtitle_st playing_is.subtitle_stream
          playing_is.subtitleq 2)) :=
  ⟨by decide, by decide,
   (read_thread_pauses_iff 0 15728640 2 { playing_is with audioq := aborted_queue }
      (by decide) rfl (by decide) (by decide) (by decide)).2.1⟩

/-- C19: in `ffp_check_buffering_l` the percentage passed to the buffering-update
notification is the minimum of the time and size percentages when both are available
(`>= 0`), the time percentage when only it is available, and the size percentage when
the time percentage is not available; the time percentage is
`av_rescale(cached_duration_in_ms, 1005, hwm_in_ms * 10)` and the size percentage
`av_rescale(cached_size, 1005, hwm_in_bytes * 10)` whenever they are computed, and -1
otherwise.  The notification is sent when that percentage is not 0. -/
theorem buffering_percent_reported (MIN_MIN_FRAMES : Int) (b : BufferingInput)
    (is : VideoState) (pos : Int) (ind : Option Int) :
    ((ffp_check_buffering_l MIN_MIN_FRAMES b is pos ind).buf_time_percent ≥ 0 →
      (ffp_check_buffering_l MIN_MIN_FRAMES b is pos ind).buf_size_percent ≥ 0 →
      (ffp_check_buffering_l MIN_MIN_FRAMES b is pos ind).buf_percent =
        min (ffp_check_buffering_l MIN_MIN_FRAMES b is pos ind).buf_time_percent
          (ffp_check_buffering_l MIN_MIN_FRAMES b is pos ind).buf_size_percent) ∧
    ((ffp_check_buffering_l MIN_MIN_FRAMES b is pos ind).buf_time_percent ≥ 0 →
      (ffp_check_buffering_l MIN_MIN_FRAMES b is pos ind).buf_size_percent < 0 →
      (ffp_check_buffering_l MIN_MIN_FRAMES b is pos ind).buf_percent =
        (ffp_check_buffering_l MIN_MIN_FRAMES b is pos ind).buf_time_percent) ∧
    ((ffp_check_buffering_l MIN_MIN_FRAMES b is pos ind).buf_time_percent < 0 →
      (ffp_check_buffering_l MIN_MIN_FRAMES b is pos ind).buf_percent =
        (ffp_check_buffering_l MIN_MIN_FRAMES b is pos ind).buf_size_percent) ∧
    ((ffp_check_buffering_l MIN_MIN_FRAMES b is pos ind).buf_percent ≠ 0 →
      ∃ p, (ffp_check_buffering_l MIN_MIN_FRAMES b is pos ind).notified =
        some (p, (ffp_check_buffering_l MIN_MIN_FRAMES b is pos ind).buf_percent)) ∧
    ((ffp_check_buffering_l MIN_MIN_FRAMES b is pos ind).buf_percent = 0 →
      (ffp_check_buffering_l MIN_MIN_FRAMES b is pos ind).notified = none) ∧
    (b.dcc.current_high_water_mark_in_ms > 0 → cached_duration_in_ms b is ≥ 0 →
      (ffp_check_buffering_l MIN_MIN_FRAMES b is pos ind).buf_time_percent =
        av_rescale (cached_duration_in_ms b is) 1005
          (b.dcc.current_high_water_mark_in_ms * 10)) ∧
    (¬ (b.dcc.current_high_water_mark_in_ms > 0 ∧ cached_duration_in_ms b is ≥ 0) →
      (ffp_check_buffering_l MIN_MIN_FRAMES b is pos ind).buf_time_percent = -1) ∧
    (b.dcc.high_water_mark_in_bytes > 0 →
      (ffp_check_buffering_l MIN_MIN_FRAMES b is pos ind).buf_size_percent =
        av_rescale (is.audioq.size + is.videoq.size) 1005
          (b.dcc.high_water_mark_in_bytes * 10)) ∧
    (b.dcc.high_water_mark_in_bytes ≤ 0 →
      (ffp_check_buffering_l MIN_MIN_FRAMES b is pos ind).buf_size_percent = -1) := by
  refine ⟨?_, ?_, ?_, ?_, ?_, ?_, ?_, ?_, ?_⟩
  · intro ht hs
    have h : (ffp_check_buffering_l MIN_MIN_FRAMES b is pos ind).buf_percent =
        FFMIN (ffp_check_buffering_l MIN_MIN_FRAMES b is pos ind).buf_time_percent
          (ffp_check_buffering_l MIN_MIN_FRAMES b is pos ind).buf_size_percent := by
      simp only [ffp_check_buffering_l] at ht hs ⊢
      rw [if_pos ⟨ht, hs⟩]
    rw [h]
    simp only [FFMIN]
    split
    · rw [min_eq_right (le_of_lt (by assumption))]
    · rw [min_eq_left (not_lt.mp (by assumption))]
  · intro ht hs
    simp only [ffp_check_buffering_l] at ht hs ⊢
    rw [if_neg (fun h => absurd h.2 (not_le.mpr hs)), if_pos ht]
  · intro ht
    simp only [ffp_check_buffering_l] at ht ⊢
    rw [if_neg (fun h => absurd h.1 (not_le.mpr ht)), if_neg (not_le.mpr ht)]
  · intro hne
    simp only [ffp_check_buffering_l] at hne ⊢
    rw [if_pos hne]
    exact ⟨_, rfl⟩
  · intro he
    simp only [ffp_check_buffering_l] at he ⊢
    rw [if_neg (not_not.mpr he)]
  · intro hh hc
    simp [ffp_check_buffering_l, hh, hc]
  · intro hn
    simp only [ffp_check_buffering_l]
    by_cases hh : b.dcc.current_high_water_mark_in_ms > 0
    · have hc : ¬ cached_duration_in_ms b is ≥ 0 := fun h => hn ⟨hh, h⟩
      simp [hh, hc]
    · simp [hh]
  · intro hb
    simp [ffp_check_buffering_l, hb]
  · intro hb
    have : ¬ b.dcc.high_water_mark_in_bytes > 0 := not_lt.mpr hb
    simp [ffp_check_buffering_l, this]

/-- C19 at a concrete session: 200 ms of audio and 300 ms of video cached against a
100 ms mark give a time percentage of 201; 53 bytes queued against 256 KiB give a size
percentage of 0; the reported percentage is their minimum, 0, so no notification is
sent. -/
theorem buffering_percent_reported_witness :
    (ffp_check_buffering_l 2 first_mark_input av_is 0 none).buf_time_percent = 201 ∧
    (ffp_check_buffering_l 2 first_mark_input av_is 0 none).buf_size_percent = 0 ∧
    (ffp_check_buffering_l 2 first_mark_input av_is 0 none).buf_percent =
      min (ffp_check_buffering_l 2 first_mark_input av_is 0 none).buf_time_percent
        (ffp_check_buffering_l 2 first_mark_input av_is 0 none).buf_size_percent ∧
    (ffp_check_buffering_l 2 first_mark_input av_is 0 none).notified = none :=
  ⟨by decide, by decide,
   (buffering_percent_reported 2 first_mark_input av_is 0 none).1 (by decide) (by decide),
   (buffering_percent_reported 2 first_mark_input av_is 0 none).2.2.2.2.1 (by decide)⟩

/-- C20 as stated fails: on the first high-water mark of 100 ms (next mark 1000 ms,
ceiling 5000 ms) a time percentage of 201 moves the current mark to 1000 ms, not to
`min(2 * 100, 5000) = 200`. -/
theorem high_water_mark_doubling_counterexample :
    (ffp_check_buffering_l 2 first_mark_input av_is 0 none).buf_time_percent = 201 ∧
    (ffp_check_buffering_l 2 first_mark_input av_is 0 none).need_start_buffering = true ∧
    (ffp_check_buffering_l 2 first_mark_input av_is 0 none).current_high_water_mark_in_ms =
      1000 ∧
    (ffp_check_buffering_l 2 first_mark_input av_is 0 none).current_high_water_mark_in_ms ≠
      min (2 * first_mark_input.dcc.current_high_water_mark_in_ms)
        first_mark_input.dcc.last_high_water_mark_in_ms := by
  decide

/-- C20, amended: `ffp_check_buffering_l` escalates the current high-water mark exactly
when the active percentage (the time percentage when available, else the size
percentage) is at least 100; the new mark is then
`min(next_high_water_mark_in_ms, last_high_water_mark_in_ms)` when the old mark is
below `next_high_water_mark_in_ms`, and `min(2 * old mark, last_high_water_mark_in_ms)`
otherwise; in all other cases the mark is unchanged. -/
theorem high_water_mark_escalation (MIN_MIN_FRAMES : Int) (b : BufferingInput)
    (is : VideoState) (pos : Int) (ind : Option Int) :
    ((ffp_check_buffering_l MIN_MIN_FRAMES b is pos ind).need_start_buffering = true ↔
      ((ffp_check_buffering_l MIN_MIN_FRAMES b is pos ind).buf_time_percent ≥ 0 ∧
        (ffp_check_buffering_l MIN_MIN_FRAMES b is pos ind).buf_time_percent ≥ 100) ∨
      ((ffp_check_buffering_l MIN_MIN_FRAMES b is pos ind).buf_time_percent < 0 ∧
        (ffp_check_buffering_l MIN_MIN_FRAMES b is pos ind).buf_size_percent ≥ 100)) ∧
    ((ffp_check_buffering_l MIN_MIN_FRAMES b is pos ind).need_start_buffering = true →
      b.dcc.current_high_water_mark_in_ms < b.dcc.next_high_water_mark_in_ms →
      (ffp_check_buffering_l MIN_MIN_FRAMES b is pos ind).current_high_water_mark_in_ms =
        min b.dcc.next_high_water_mark_in_ms b.dcc.last_high_water_mark_in_ms) ∧
    ((ffp_check_buffering_l MIN_MIN_FRAMES b is pos ind).need_start_buffering = true →
      ¬ b.dcc.current_high_water_mark_in_ms < b.dcc.next_high_water_mark_in_ms →
      (ffp_check_buffering_l MIN_MIN_FRAMES b is pos ind).current_high_water_mark_in_ms =
        min (2 * b.dcc.current_high_water_mark_in_ms) b.dcc.last_high_water_mark_in_ms) ∧
    ((ffp_check_buffering_l MIN_MIN_FRAMES b is pos ind).need_start_buffering = false →
      (ffp_check_buffering_l MIN_MIN_FRAMES b is pos ind).current_high_water_mark_in_ms =
        b.dcc.current_high_water_mark_in_ms) := by
  have key : ∀ t s : Int,
      ((if t ≥ 0 then decide (t ≥ 100) else decide (s ≥ 100)) = true ↔
        (t ≥ 0 ∧ t ≥ 100) ∨ (t < 0 ∧ s ≥ 100)) := by
    intro t s
    by_cases h : t ≥ 0
    · have h2 : ¬ t < 0 := not_lt.mpr h
      simp [h, h2]
    · have h2 : t < 0 := lt_of_not_ge h
      simp [h, h2]
  refine ⟨key _ _, ?_, ?_, ?_⟩
  · intro hn hlt
    simp only [ffp_check_buffering_l] at hn ⊢
    rw [if_pos hn, if_pos hlt]
    split
    · rw [min_eq_right (le_of_lt (by assumption))]
    · rw [min_eq_left (not_lt.mp (by assumption))]
  · intro hn hlt
    simp only [ffp_check_buffering_l] at hn ⊢
    rw [if_pos hn, if_neg hlt]
    split
    · rw [min_eq_right (le_of_lt (by linarith))]
    · rw [min_eq_left (by linarith), mul_comm]
  · intro hn
    simp only [ffp_check_buffering_l] at hn ⊢
    rw [hn]
    simp

/-- C20, amended, at concrete inputs: from the first mark of 100 ms the mark jumps to
the next mark, 1000 ms; from 1000 ms it is doubled to 2000 ms. -/
theorem high_water_mark_escalation_witness :
    (ffp_check_buffering_l 2 first_mark_input av_is 0 none).current_high_water_mark_in_ms =
      min first_mark_input.dcc.next_high_water_mark_in_ms
        first_mark_input.dcc.last_high_water_mark_in_ms ∧
    (ffp_check_buffering_l 2 next_mark_input av_is 0 none).current_high_water_mark_in_ms =
      min (2 * next_mark_input.dcc.current_high_water_mark_in_ms)
        next_mark_input.dcc.last_high_water_mark_in_ms ∧
    (ffp_check_buffering_l 2 next_mark_input av_is 0 none).current_high_water_mark_in_ms =
      2000 :=
  ⟨(high_water_mark_escalation 2 first_mark_input av_is 0 none).2.1 (by decide) (by decide),
   (high_water_mark_escalation 2 next_mark_input av_is 0 none).2.2.1 (by decide)
     (by decide),
   by decide⟩

/-! ## Further properties of the queues -/

/-- C23: `packet_queue_abort` is idempotent: calling it twice gives the same queue as
calling it once, with `abort_request = 1` and the packet list, `nb_packets`, `size`,
`duration` and `serial` as they were. -/
theorem packet_queue_abort_idempotent (q : PacketQueue) :
    packet_queue_abort (packet_queue_abort q) = packet_queue_abort q ∧
    (packet_queue_abort q).abort_request = 1 ∧
    (packet_queue_abort q).pkts = q.pkts ∧
    (packet_queue_abort q).nb_packets = q.nb_packets ∧
    (packet_queue_abort q).size = q.size ∧
    (packet_queue_abort q).duration = q.duration ∧
    (packet_queue_abort q).serial = q.serial ∧
    (packet_queue_abort q).recycle_pkt = q.recycle_pkt := by
  refine ⟨?_, rfl, rfl, rfl, rfl, rfl, rfl, rfl⟩
  simp only [packet_queue_abort]

/-- One step forward of a cursor that is within `0 .. m - 1`, as the code does it
(`if (++i == m) i = 0`), is the successor modulo `m`. -/
theorem cursor_wrap (i m : Int) (h0 : 0 ≤ i) (hm : i < m) :
    (if i + 1 = m then 0 else i + 1) = (i + 1) % m := by
  by_cases he : i + 1 = m
  · simp only [he, if_true, Int.emod_self]
  · simp only [he, if_false]
    rw [Int.emod_eq_of_lt (by omega) (by omega)]

/-- Every call made under the usage discipline keeps `FQCursors`. -/
theorem fq_step_cursors (s s1 : FQState) (op : FQOp) (hstep : fq_step s op = some s1)
    (hinv : FQCursors s) : FQCursors s1 := by
  obtain ⟨⟨hr0, hr1⟩, ⟨hw0, hw1⟩, ⟨hs0, hs1⟩, hw, ⟨hrs0, hrs1⟩, hh⟩ := hinv
  cases op with
  | peek_writable a =>
    simp only [fq_step, frame_queue_peek_writable] at hstep
    by_cases hw2 : s.f.size ≥ s.f.max_size ∧ a = 0
    · simp only [hw2, and_self, if_true, Option.some.injEq] at hstep
      subst hstep
      exact ⟨⟨hr0, hr1⟩, ⟨hw0, hw1⟩, ⟨hs0, hs1⟩, hw, ⟨hrs0, hrs1⟩, by simp⟩
    · by_cases ha : a = 0
      · have hlt : s.f.size < s.f.max_size := by
          by_contra hge
          exact hw2 ⟨not_lt.mp hge, ha⟩
        have hnge : ¬ s.f.size ≥ s.f.max_size := not_le.mpr hlt
        simp only [hnge, ha, false_and, if_false, ne_eq, not_true_eq_false,
          Option.some.injEq] at hstep
        subst hstep
        exact ⟨⟨hr0, hr1⟩, ⟨hw0, hw1⟩, ⟨hs0, hs1⟩, hw, ⟨hrs0, hrs1⟩, fun _ => hlt⟩
      · simp only [ha, and_false, if_false, ne_eq, not_false_eq_true, if_true,
          Option.some.injEq] at hstep
        subst hstep
        exact ⟨⟨hr0, hr1⟩, ⟨hw0, hw1⟩, ⟨hs0, hs1⟩, hw, ⟨hrs0, hrs1⟩, by simp⟩
  | push =>
    simp only [fq_step] at hstep
    by_cases hhold : s.holding = true
    · simp only [hhold, if_true, Option.some.injEq] at hstep
      subst hstep
      have hlt := hh hhold
      have hwrap := cursor_wrap s.f.windex s.f.max_size hw0 hw1
      have hmpos : 0 < s.f.max_size := by omega
      refine ⟨⟨hr0, hr1⟩, ?_, ?_, ?_, ?_, by simp⟩
      · simp only [frame_queue_push]
        rw [hwrap]
        exact ⟨Int.emod_nonneg _ (by omega), Int.emod_lt_of_pos _ hmpos⟩
      · simp only [frame_queue_push]
        omega
      · simp only [frame_queue_push]
        rw [hwrap, hw, Int.emod_add_emod, add_assoc]
      · simp only [frame_queue_push]
        omega
    · simp [hhold] at hstep
  | next =>
    simp only [fq_step, frame_queue_nb_remaining] at hstep
    by_cases hrem : s.f.size - s.f.rindex_shown > 0
    · simp only [hrem, if_true, Option.some.injEq] at hstep
      subst hstep
      by_cases hk : s.f.keep_last ≠ 0 ∧ s.f.rindex_shown = 0
      · simp only [frame_queue_next, hk, ne_eq, not_false_eq_true, and_self, if_true]
        have h0 := hk.2
        exact ⟨⟨hr0, hr1⟩, ⟨hw0, hw1⟩, ⟨hs0, hs1⟩, hw, ⟨by simp, by simp only; omega⟩, hh⟩
      · have hn : frame_queue_next s.f =
            { s.f with rindex := if s.f.rindex + 1 = s.f.max_size then 0 else s.f.rindex + 1,
                       size := s.f.size - 1 } := by
          simp only [frame_queue_next, hk, if_false]
        rw [hn]
        have hwrap := cursor_wrap s.f.rindex s.f.max_size hr0 hr1
        have hmpos : 0 < s.f.max_size := by omega
        refine ⟨?_, ⟨hw0, hw1⟩, ?_, ?_, ?_, ?_⟩
        · simp only
          rw [hwrap]
          exact ⟨Int.emod_nonneg _ (by omega), Int.emod_lt_of_pos _ hmpos⟩
        · simp only
          omega
        · simp only
          rw [hwrap, hw, Int.emod_add_emod]
          congr 1
          ring
        · simp only
          omega
        · intro hhold
          have := hh hhold
          simp only
          omega
    · simp [hrem] at hstep

/-- Every sequence of calls made under the usage discipline keeps `FQCursors`. -/
theorem fq_run_cursors (ops : List FQOp) :
    ∀ s s1 : FQState, fq_run s ops = some s1 → FQCursors s → FQCursors s1 := by
  induction ops with
  | nil =>
    intro s s1 hrun hinv
    simp only [fq_run, Option.some.injEq] at hrun
    subst hrun
    exact hinv
  | cons op ops ih =>
    intro s s1 hrun hinv
    simp only [fq_run] at hrun
    cases hs : fq_step s op with
    | none => simp [hs] at hrun
    | some s2 =>
      simp only [hs] at hrun
      exact ih s2 s1 hrun (fq_step_cursors s s2 op hs hinv)

/-- C27: in every frame queue state reached from `frame_queue_init` with a capacity of
at least 1 by calls made under the usage discipline, both cursors lie within
`0 .. max_size - 1` and `windex = (rindex + size) mod max_size`; hence, while
`size < max_size`, `windex` is none of the `size` occupied slots starting at `rindex`,
and neither is any slot that `frame_queue_peek_writable` returns. -/
theorem frame_queue_cursors_in_range (FRAME_QUEUE_SIZE max_size keep_last : Int)
    (hcap : 1 ≤ (frame_queue_init FRAME_QUEUE_SIZE max_size keep_last).max_size)
    (ops : List FQOp) (s : FQState)
    (hrun : fq_run { f := frame_queue_init FRAME_QUEUE_SIZE max_size keep_last,
                     holding := false } ops = some s) :
    (0 ≤ s.f.rindex ∧ s.f.rindex < s.f.max_size) ∧
    (0 ≤ s.f.windex ∧ s.f.windex < s.f.max_size) ∧
    s.f.windex = (s.f.rindex + s.f.size) % s.f.max_size ∧
    (s.f.size < s.f.max_size → ∀ j : Int, 0 ≤ j → j < s.f.size →
      (s.f.rindex + j) % s.f.max_size ≠ s.f.windex) ∧
    (∀ (a i : Int), frame_queue_peek_writable s.f a = PeekOutcome.slot i →
      ∀ j : Int, 0 ≤ j → j < s.f.size → (s.f.rindex + j) % s.f.max_size ≠ i) := by
  have hinit : FQCursors { f := frame_queue_init FRAME_QUEUE_SIZE max_size keep_last,
                           holding := false } := by
    have h0 : (frame_queue_init FRAME_QUEUE_SIZE max_size keep_last).rindex = 0 := rfl
    have h1 : (frame_queue_init FRAME_QUEUE_SIZE max_size keep_last).windex = 0 := rfl
    have h2 : (frame_queue_init FRAME_QUEUE_SIZE max_size keep_last).size = 0 := rfl
    have h3 : (frame_queue_init FRAME_QUEUE_SIZE max_size keep_last).rindex_shown = 0 := rfl
    refine ⟨⟨?_, ?_⟩, ⟨?_, ?_⟩, ⟨?_, ?_⟩, ?_, ⟨?_, ?_⟩, by simp⟩
    · simp only [h0]; exact le_refl 0
    · simp only [h0]; omega
    · simp only [h1]; exact le_refl 0
    · simp only [h1]; omega
    · simp only [h2]; exact le_refl 0
    · simp only [h2]; omega
    · simp only [h0, h1, h2]; simp
    · simp only [h3]; exact le_refl 0
    · simp only [h3, h2]; exact le_refl 0
  obtain ⟨⟨hr0, hr1⟩, ⟨hw0, hw1⟩, ⟨hs0, hs1⟩, hw, _, _⟩ := fq_run_cursors ops _ s hrun hinit
  have hfree : s.f.size < s.f.max_size → ∀ j : Int, 0 ≤ j → j < s.f.size →
      (s.f.rindex + j) % s.f.max_size ≠ s.f.windex := by
    intro hlt j hj0 hj1 heq
    rw [hw, Int.emod_eq_emod_iff_emod_sub_eq_zero] at heq
    have hdvd : s.f.max_size ∣ s.f.rindex + j - (s.f.rindex + s.f.size) :=
      Int.dvd_of_emod_eq_zero heq
    have he : s.f.rindex + j - (s.f.rindex + s.f.size) = -(s.f.size - j) := by ring
    rw [he, dvd_neg] at hdvd
    have hle := Int.le_of_dvd (by omega) hdvd
    omega
  refine ⟨⟨hr0, hr1⟩, ⟨hw0, hw1⟩, hw, hfree, ?_⟩
  intro a i hpeek j hj0 hj1
  simp only [frame_queue_peek_writable] at hpeek
  by_cases hwait : s.f.size ≥ s.f.max_size ∧ a = 0
  · simp [hwait] at hpeek
  · by_cases ha : a = 0
    · have hlt : s.f.size < s.f.max_size := by
        by_contra hge
        exact hwait ⟨not_lt.mp hge, ha⟩
      have hnge : ¬ s.f.size ≥ s.f.max_size := not_le.mpr hlt
      simp only [hnge, ha, false_and, if_false, ne_eq, not_true_eq_false,
        PeekOutcome.slot.injEq] at hpeek
      rw [← hpeek]
      exact hfree hlt j hj0 hj1
    · simp [ha] at hpeek

/-- C27 at a concrete run on the sample picture queue (capacity 3): after three pushes
and one advance past the kept frame the queue holds 2 frames from slot 1 on, and the
write cursor is at slot 0. -/
theorem frame_queue_cursors_in_range_witness :
    fq_run { f := frame_queue_init 16 3 1, holding := false }
      [FQOp.peek_writable 0, FQOp.push, FQOp.peek_writable 0, FQOp.push,
       FQOp.peek_writable 0, FQOp.push, FQOp.next, FQOp.next] =
      some { f := { fq_full with windex := 0, size := 2 }, holding := false } ∧
    ((0 : Int) ≤ 1 ∧ (1 : Int) < 3) ∧ ((0 : Int) ≤ 0 ∧ (0 : Int) < 3) ∧
    (0 : Int) = (1 + 2) % 3 :=
  ⟨by decide,
   (frame_queue_cursors_in_range 16 3 1 (by decide)
      [FQOp.peek_writable 0, FQOp.push, FQOp.peek_writable 0, FQOp.push,
       FQOp.peek_writable 0, FQOp.push, FQOp.next, FQOp.next]
      { f := { fq_full with windex := 0, size := 2 }, holding := false } (by decide)).1,
   (frame_queue_cursors_in_range 16 3 1 (by decide)
      [FQOp.peek_writable 0, FQOp.push, FQOp.peek_writable 0, FQOp.push,
       FQOp.peek_writable 0, FQOp.push, FQOp.next, FQOp.next]
      { f := { fq_full with windex := 0, size := 2 }, holding := false } (by decide)).2.1,
   (frame_queue_cursors_in_range 16 3 1 (by decide)
      [FQOp.peek_writable 0, FQOp.push, FQOp.peek_writable 0, FQOp.push,
       FQOp.peek_writable 0, FQOp.push, FQOp.next, FQOp.next]
      { f := { fq_full with windex := 0, size := 2 }, holding := false } (by decide)).2.2.1⟩

/-- C28 fails on the code: the queue holding a packet of duration -5 and a key frame of
duration 40 has its three counters in agreement with its nodes; after
`drop_queue_until_pts` removed the first packet, `nb_packets` and `size` still agree
with the remaining node, but `duration` is 35 where the remaining node totals 40: the
negative duration that was added on put is not taken off on drop. -/
theorem drop_queue_until_pts_duration_drift :
    Accounted 48 negative_duration_queue ∧
    (drop_queue_until_pts 48 negative_duration_queue 150).1.pkts =
      [{ pkt := video_pkt 160 1, serial := 0 }] ∧
    (drop_queue_until_pts 48 negative_duration_queue 150).1.nb_packets = 1 ∧
    (drop_queue_until_pts 48 negative_duration_queue 150).1.size = 3 + 48 ∧
    (drop_queue_until_pts 48 negative_duration_queue 150).1.duration = 35 ∧
    duration_of ((drop_queue_until_pts 48 negative_duration_queue 150).1.pkts.map node_view) =
      40 ∧
    ¬ Accounted 48 (drop_queue_until_pts 48 negative_duration_queue 150).1 := by
  refine ⟨?_, by decide, by decide, by decide, by decide, by decide, ?_⟩
  · unfold Accounted
    decide
  · unfold Accounted
    decide

/-! ## Properties of audio pacing and looping -/

/-- With a loop count above 1 a natural end seeks back and decrements the count. -/
theorem natural_end_action_of_gt (autoexit n : Int) (hn : 1 < n) :
    natural_end_action n autoexit = (EndAction.seek_to_start, n - 1) := by
  have h1 : n ≠ 1 := by omega
  have h2 : n ≠ 0 := by omega
  have h3 : n - 1 ≠ 0 := by omega
  simp [natural_end_action, h1, h2, h3]

/-- With a loop count of `n + 1` the stream is played `n + 1` times, given at least that
many natural ends to follow. -/
theorem plays_until_complete_succ (autoexit : Int) (n : Nat) :
    ∀ fuel : Nat, n + 1 ≤ fuel →
      plays_until_complete autoexit fuel ((n : Int) + 1) = some (n + 1) := by
  induction n with
  | zero =>
    intro fuel hf
    obtain ⟨f, rfl⟩ : ∃ f, fuel = f + 1 := ⟨fuel - 1, by omega⟩
    simp only [plays_until_complete, natural_end_action]
    by_cases ha : autoexit = 0 <;> simp [ha]
  | succ n ih =>
    intro fuel hf
    obtain ⟨f, rfl⟩ : ∃ f, fuel = f + 1 := ⟨fuel - 1, by omega⟩
    have h4 : ((n + 1 : Nat) : Int) + 1 - 1 = (n : Int) + 1 := by omega
    have hact := natural_end_action_of_gt autoexit (((n + 1 : Nat) : Int) + 1) (by omega)
    rw [h4] at hact
    simp only [plays_until_complete, hact]
    rw [ih f (by omega)]
    rfl

/-- C25: at a natural end of playback the read loop seeks back to the start with
`loop = 0` (leaving the count at 0, so it does so at every end), never with
`loop = 1`, and with `loop = n > 1` after decrementing the count to `n - 1`; hence a
session configured with `loop = n >= 1` plays the stream exactly `n` times before it
completes, and one configured with `loop = 0` never completes. -/
theorem natural_end_loops (autoexit : Int) :
    natural_end_action 0 autoexit = (EndAction.seek_to_start, 0) ∧
    ((natural_end_action 1 autoexit).1 ≠ EndAction.seek_to_start ∧
      (natural_end_action 1 autoexit).2 = 1) ∧
    (∀ n : Int, 1 < n →
      natural_end_action n autoexit = (EndAction.seek_to_start, n - 1)) ∧
    (∀ n : Int, 0 ≤ n →
      ((natural_end_action n autoexit).1 = EndAction.seek_to_start ↔ n ≠ 1)) ∧
    (∀ n fuel : Nat, 1 ≤ n → n ≤ fuel →
      plays_until_complete autoexit fuel (n : Int) = some n) ∧
    (∀ fuel : Nat, plays_until_complete autoexit fuel 0 = none) := by
  refine ⟨by simp [natural_end_action], ?_, ?_, ?_, ?_, ?_⟩
  · by_cases ha : autoexit = 0 <;> simp [natural_end_action, ha]
  · intro n hn
    exact natural_end_action_of_gt autoexit n hn
  · intro n hn
    by_cases h1 : n = 1
    · subst h1
      by_cases ha : autoexit = 0 <;> simp [natural_end_action, ha]
    · by_cases h2 : n = 0
      · subst h2
        simp [natural_end_action]
      · have h3 : n - 1 ≠ 0 := by omega
        simp [natural_end_action, h1, h2, h3]
  · intro n fuel hn hf
    obtain ⟨m, rfl⟩ : ∃ m, n = m + 1 := ⟨n - 1, by omega⟩
    have := plays_until_complete_succ autoexit m fuel hf
    simpa using this
  · intro fuel
    induction fuel with
    | zero => rfl
    | succ f ih =>
      simp only [plays_until_complete, natural_end_action]
      simp [ih]

/-- C25 at concrete loop counts: with `loop = 3` the first natural end seeks back and
leaves a count of 2, and the stream is played 3 times in all. -/
theorem natural_end_loops_witness :
    natural_end_action 3 0 = (EndAction.seek_to_start, 3 - 1) ∧
    plays_until_complete 0 5 ((3 : Nat) : Int) = some 3 ∧
    plays_until_complete 0 5 3 = some 3 :=
  ⟨(natural_end_loops 0).2.2.1 3 (by decide),
   (natural_end_loops 0).2.2.2.2.1 3 5 (by decide) (by decide),
   by decide⟩

/-! ## Properties of double-precision arithmetic -/

/-- What a push does, case by case: full gives `RB_EFULL`, a failed allocation
`RB_ENOMEM`, both leaving the buffer untouched; undefined behaviour gives `none`; else
the return value is 0, one slot is replaced and the write position advances. -/
theorem ring_buffer_push_cases (prb : pcm_ring_buffer) (buffer : List Nat) (length : Int)
    (ts : Nat) (m : Bool) :
    (ring_buffer_full prb = true ∧
      ring_buffer_push prb buffer length ts m = some (RB_EFULL, prb)) ∨
    (ring_buffer_full prb = false ∧
      (ring_buffer_push prb buffer length ts m = none ∨
        ring_buffer_push prb buffer length ts m = some (RB_ENOMEM, prb) ∨
        ∃ item : item_data,
          ring_buffer_push prb buffer length ts m =
            some (0, { prb with
                         item_array := prb.item_array.set prb.w_pos.toNat item,
                         w_pos := (prb.w_pos + 1) % prb.nitem }))) := by
  by_cases hf : ring_buffer_full prb = true
  · left
    exact ⟨hf, by simp [ring_buffer_push, hf]⟩
  · right
    have hf2 : ring_buffer_full prb = false := by simpa using hf
    refine ⟨hf2, ?_⟩
    simp only [ring_buffer_push, hf2, Bool.false_eq_true, if_false]
    cases hs : slot_at prb prb.w_pos with
    | none => left; rfl
    | some item =>
      simp only
      cases hb : item.buffer with
      | some bytes =>
        cases hc : memcpy bytes buffer length with
        | none => left; simp [hb, hc]
        | some out =>
          right; right
          exact ⟨{ item with buffer := some out, ts := ts }, by simp [hb, hc]⟩
      | none =>
        by_cases ha : m = false ∨ length < 0
        · right; left
          simp [ha]
        · cases hc : memcpy (List.replicate length.toNat 0) buffer length with
          | none => left; simp [hb, ha, hc]
          | some out =>
            right; right
            exact ⟨{ buffer := some out, length := length, ts := ts },
              by simp [hb, ha, hc]⟩

/-- Every call made under the usage discipline keeps `RBInv` and `nitem`. -/
theorem rb_step_inv (s s1 : RBState) (op : RBOp) (hstep : rb_step s op = some s1)
    (hinv : RBInv s) : RBInv s1 ∧ s1.prb.nitem = s.prb.nitem := by
  obtain ⟨⟨hr0, hr1⟩, ⟨hw0, hw1⟩, hlen, hpp, hav⟩ := hinv
  cases op with
  | push buffer length ts m =>
    simp only [rb_step] at hstep
    rcases ring_buffer_push_cases s.prb buffer length ts m with
      ⟨_, hp⟩ | ⟨hnf, hp | hp | ⟨item, hp⟩⟩
    · rw [hp] at hstep
      simp only [Option.some.injEq] at hstep
      subst hstep
      have hne : ¬ RB_EFULL = 0 := by decide
      refine ⟨⟨⟨hr0, hr1⟩, ⟨hw0, hw1⟩, hlen, ?_, ?_⟩, rfl⟩
      · simp only [hne, if_false]
        exact hpp
      · simp only [hne, if_false]
        exact hav
    · rw [hp] at hstep
      simp at hstep
    · rw [hp] at hstep
      simp only [Option.some.injEq] at hstep
      subst hstep
      have hne : ¬ RB_ENOMEM = 0 := by decide
      refine ⟨⟨⟨hr0, hr1⟩, ⟨hw0, hw1⟩, hlen, ?_, ?_⟩, rfl⟩
      · simp only [hne, if_false]
        exact hpp
      · simp only [hne, if_false]
        exact hav
    · rw [hp] at hstep
      simp only [Option.some.injEq] at hstep
      subst hstep
      have hwrap := cursor_wrap s.prb.w_pos s.prb.nitem hw0 hw1
      have hnfull : (s.prb.w_pos + 1) % s.prb.nitem ≠ s.prb.r_pos := by
        simpa [ring_buffer_full] using hnf
      refine ⟨⟨⟨hr0, hr1⟩, ?_, ?_, ?_, ?_⟩, rfl⟩
      · simp only
        exact ⟨Int.emod_nonneg _ (by omega), Int.emod_lt_of_pos _ (by omega)⟩
      · simp only [List.length_set]
        exact hlen
      · simp only [if_true]
        omega
      · simp only [ring_buffer_available, if_true] at hav ⊢
        rw [← hwrap] at hnfull ⊢
        push_cast
        split_ifs at hav hnfull ⊢ <;> omega
  | pop =>
    simp only [rb_step] at hstep
    by_cases he : ring_buffer_empty s.prb = true
    · simp [he] at hstep
    · simp only [he, Bool.false_eq_true, if_false, Option.some.injEq] at hstep
      subst hstep
      have hne : s.prb.r_pos ≠ s.prb.w_pos := by
        simpa [ring_buffer_empty] using he
      have hwrap := cursor_wrap s.prb.r_pos s.prb.nitem hr0 hr1
      have hav2 : ring_buffer_available (ring_buffer_pop s.prb) =
          ring_buffer_available s.prb - 1 := by
        simp only [ring_buffer_available, ring_buffer_pop]
        rw [← hwrap]
        split_ifs <;> omega
      have hpos : 0 < ring_buffer_available s.prb := by
        simp only [ring_buffer_available]
        split_ifs <;> omega
      refine ⟨⟨?_, ⟨hw0, hw1⟩, hlen, ?_, ?_⟩, rfl⟩
      · simp only [ring_buffer_pop]
        exact ⟨Int.emod_nonneg _ (by omega), Int.emod_lt_of_pos _ (by omega)⟩
      · simp only
        omega
      · simp only
        rw [hav2, hav]
        push_cast
        ring

/-- Every sequence of calls made under the usage discipline keeps `RBInv` and
`nitem`. -/
theorem rb_run_inv (ops : List RBOp) :
    ∀ s s1 : RBState, rb_run s ops = some s1 → RBInv s →
      RBInv s1 ∧ s1.prb.nitem = s.prb.nitem := by
  induction ops with
  | nil =>
    intro s s1 hrun hinv
    simp only [rb_run, Option.some.injEq] at hrun
    subst hrun
    exact ⟨hinv, rfl⟩
  | cons op ops ih =>
    intro s s1 hrun hinv
    simp only [rb_run] at hrun
    cases hs : rb_step s op with
    | none => simp [hs] at hrun
    | some s2 =>
      simp only [hs] at hrun
      obtain ⟨i1, i2⟩ := rb_step_inv s s2 op hs hinv
      obtain ⟨j1, j2⟩ := ih s2 s1 hrun i1
      exact ⟨j1, j2.trans i2⟩

/-- C29 fails on the code: in a ring buffer of 2 slots that is not full and whose slot
at `w_pos` was filled before by a push of 4 bytes, a push of the 2 bytes 7, 8 with
timestamp 300 returns 0 and advances `w_pos`, but the slot then holds the 4 bytes
7, 8, 3, 4 with its length field still 4, so the following `ring_buffer_peek` yields an
item of length 4, not 2; and a push of 5 bytes into that slot copies beyond its 4-byte
block. -/
theorem ring_buffer_push_stale_length :
    reused_rb = some { prb := reused_prb, pushes := 2, pops := 2 } ∧
    ring_buffer_full reused_prb = false ∧
    ring_buffer_push reused_prb [7, 8] 2 300 true =
      some (0, { reused_prb with
                   w_pos := 1,
                   item_array := [{ buffer := some [7, 8, 3, 4], length := 4, ts := 300 },
                                  { buffer := some [5, 6], length := 2, ts := 200 }] }) ∧
    (ring_buffer_push reused_prb [7, 8] 2 300 true).map (fun r => ring_buffer_peek r.2) =
      some (some 0) ∧
    (ring_buffer_push reused_prb [7, 8] 2 300 true).map
        (fun r => (slot_at r.2 0).map (fun item => item.length)) = some (some 4) ∧
    ring_buffer_push reused_prb [7, 8, 9, 10, 11] 5 300 true = none := by
  decide

/-- C30: for a ring buffer initialised with `nitem >= 2` and then used by pushes and by
pops made only when it is not empty, `ring_buffer_available` equals the number of
pushes that returned 0 minus the number of pops and lies between 0 and `nitem - 1`;
`ring_buffer_push` returns `RB_EFULL` exactly when `ring_buffer_available` is
`nitem - 1`, and then leaves the whole ring buffer unchanged; `ring_buffer_peek`
returns null exactly when `ring_buffer_available` is 0. -/
theorem ring_buffer_available_counts (prb0 : pcm_ring_buffer) (nitem : Int)
    (hn : 2 ≤ nitem) (ops : List RBOp) (s : RBState)
    (hrun : rb_run { prb := (ring_buffer_init prb0 nitem true).2, pushes := 0, pops := 0 }
      ops = some s)
    (buffer : List Nat) (length : Int) (ts : Nat) (malloc_ok : Bool) :
    (ring_buffer_available s.prb = (s.pushes : Int) - (s.pops : Int) ∧
      0 ≤ ring_buffer_available s.prb ∧ ring_buffer_available s.prb ≤ nitem - 1 ∧
      s.prb.nitem = nitem) ∧
    ((∃ prb1, ring_buffer_push s.prb buffer length ts malloc_ok = some (RB_EFULL, prb1)) ↔
      ring_buffer_available s.prb = nitem - 1) ∧
    (ring_buffer_available s.prb = nitem - 1 →
      ring_buffer_push s.prb buffer length ts malloc_ok = some (RB_EFULL, s.prb)) ∧
    (ring_buffer_peek s.prb = none ↔ ring_buffer_available s.prb = 0) := by
  have hinit : RBInv { prb := (ring_buffer_init prb0 nitem true).2, pushes := 0,
                       pops := 0 } := by
    refine ⟨⟨le_refl 0, ?_⟩, ⟨le_refl 0, ?_⟩, ?_, le_refl 0, ?_⟩
    · show (0 : Int) < nitem
      omega
    · show (0 : Int) < nitem
      omega
    · show ((List.replicate nitem.toNat
        ({ buffer := none, length := 0, ts := 0 } : item_data)).length : Int) = nitem
      rw [List.length_replicate]
      omega
    · rfl
  obtain ⟨⟨⟨hr0, hr1⟩, ⟨hw0, hw1⟩, _, _, hav⟩, hni⟩ := rb_run_inv ops _ s hrun hinit
  have hni2 : s.prb.nitem = nitem := hni
  have hwrap := cursor_wrap s.prb.w_pos s.prb.nitem hw0 hw1
  have hfull : ring_buffer_full s.prb = true ↔ ring_buffer_available s.prb = nitem - 1 := by
    simp only [ring_buffer_full, ring_buffer_available, decide_eq_true_eq]
    rw [← hwrap]
    split_ifs <;> constructor <;> intro h <;> omega
  have hempty : ring_buffer_empty s.prb = true ↔ ring_buffer_available s.prb = 0 := by
    simp only [ring_buffer_empty, ring_buffer_available, decide_eq_true_eq]
    split_ifs <;> constructor <;> intro h <;> omega
  refine ⟨⟨hav, ?_, ?_, hni2⟩, ?_, ?_, ?_⟩
  · simp only [ring_buffer_available]
    split_ifs <;> omega
  · simp only [ring_buffer_available]
    split_ifs <;> omega
  · constructor
    · rintro ⟨prb1, hp⟩
      rcases ring_buffer_push_cases s.prb buffer length ts malloc_ok with
        ⟨hf, _⟩ | ⟨_, h | h | ⟨item, h⟩⟩
      · exact hfull.mp hf
      · rw [h] at hp
        simp at hp
      · rw [h] at hp
        simp only [Option.some.injEq, Prod.mk.injEq] at hp
        exact absurd hp.1 (by decide)
      · rw [h] at hp
        simp only [Option.some.injEq, Prod.mk.injEq] at hp
        exact absurd hp.1 (by decide)
    · intro h
      have hf := hfull.mpr h
      exact ⟨s.prb, by simp [ring_buffer_push, hf]⟩
  · intro h
    have hf := hfull.mpr h
    simp [ring_buffer_push, hf]
  · rw [← hempty]
    simp only [ring_buffer_peek]
    by_cases he : ring_buffer_empty s.prb = true
    · simp [he]
    · simp [he]

/-- C30 at a concrete run: a ring buffer of 3 slots after three pushes and one pop holds
2 items, which makes it full: a further push returns `RB_EFULL` and changes nothing. -/
theorem ring_buffer_available_counts_witness :
    rb_run { prb := (ring_buffer_init zero_rb 3 true).2, pushes := 0, pops := 0 }
      [RBOp.push [1, 2] 2 10 true, RBOp.push [3, 4] 2 20 true, RBOp.pop,
       RBOp.push [5, 6] 2 30 true] = some { prb := full_prb, pushes := 3, pops := 1 } ∧
    ring_buffer_available full_prb = ((3 : Nat) : Int) - ((1 : Nat) : Int) ∧
    ring_buffer_available full_prb = 3 - 1 ∧
    ring_buffer_push full_prb [7, 8] 2 40 true = some (RB_EFULL, full_prb) :=
  ⟨by decide,
   (ring_buffer_available_counts zero_rb 3 (by decide)
      [RBOp.push [1, 2] 2 10 true, RBOp.push [3, 4] 2 20 true, RBOp.pop,
       RBOp.push [5, 6] 2 30 true] { prb := full_prb, pushes := 3, pops := 1 } (by decide)
      [7, 8] 2 40 true).1.1,
   by decide,
   (ring_buffer_available_counts zero_rb 3 (by decide)
      [RBOp.push [1, 2] 2 10 true, RBOp.push [3, 4] 2 20 true, RBOp.pop,
       RBOp.push [5, 6] 2 30 true] { prb := full_prb, pushes := 3, pops := 1 } (by decide)
      [7, 8] 2 40 true).2.2.1 (by decide)⟩

/-! ## Properties of recording -/

/-- C26 fails on the code: for the video packets with pts (and dts) 0, 40 and 80 passed
to `save_record_data` from the start of a recording, the pts and dts written before
rescaling are 0, 0 and 40, whereas subtracting the pts of the first packet, 0, gives 0,
40 and 80: the value 0 of `first_rec_pts` means "not set yet", so a first packet
stamped 0 is not remembered and the second packet becomes the reference. -/
theorem save_record_data_zero_first_pts :
    (save_record_sequence av_is (0, ms_time_base) (1, ms_time_base) ms_time_base
        [rec_video_pkt 0 0, rec_video_pkt 40 40, rec_video_pkt 80 80] record_start).map
      (fun w => (w.rebased_pts, w.rebased_dts)) = [(0, 0), (0, 0), (40, 40)] ∧
    [rec_video_pkt 0 0, rec_video_pkt 40 40, rec_video_pkt 80 80].map
      (fun p => (p.pts - (rec_video_pkt 0 0).pts, p.dts - (rec_video_pkt 0 0).dts)) =
      [(0, 0), (40, 40), (80, 80)] ∧
    (save_record_data av_is (0, ms_time_base) (1, ms_time_base) ms_time_base
      (rec_video_pkt 0 0) record_start).2 = record_start := by
  decide

/-! ## Properties of the decoder -/

end FFPlay
